import Mathlib

/-!
Verification development for the battle-simulation core of the
pixi-tower-diffense repository (src/example/BattleLogic.ts).

The engine is shallowly embedded: TypeScript numbers carrying health,
cost, power, speed and distances become rationals; frame counters and
identifiers become naturals; the mutable entity array becomes an
explicit list threaded through each phase; the nullable delegate
becomes an Option of a record of pure boolean policies; the notification
sink is modelled by recording the cost notifications in a log (the other
notifications carry no data any property below depends on).

The entity cross-reference engagedEntity is stored as the target's
entity id, following the design note of the specification that it
should be a stable identifier into the entity store.
-/

namespace TowerDiffense

/-- The four entity states of AttackableState. -/
inductive AttackableState
  | IDLE
  | ENGAGED
  | KNOCK_BACK
  | DEAD
deriving DecidableEq, Repr

/-- Immutable per-unit-type master record. -/
structure UnitMaster where
  unitId : Nat
  cost : ℚ
  maxHealth : ℚ
  power : ℚ
  speed : ℚ
  knockBackSpeed : ℚ
  knockBackFrames : Nat
deriving DecidableEq, Repr

/-- Battle configuration.  Field names follow the source, including the
spelling knockBackHealthThreasholds.  Modelled from the spec: the
default values of BattleLogicConfig are not part of the available
sources; they are chosen consistent with the specification (cost cap
100 as in the sibling manager, no recovery, no thresholds). -/
structure BattleLogicConfig where
  costRecoveryPerFrame : ℚ := 0
  maxAvailableCost : ℚ := 100
  knockBackHealthThreasholds : List ℚ := []
deriving DecidableEq, Repr

/-- The mutable unit of simulation. -/
structure UnitEntity where
  id : Nat
  unitId : Nat
  isPlayer : Bool
  state : AttackableState
  currentHealth : ℚ
  maxHealth : ℚ
  distance : ℚ
  engagedEntity : Option Nat
  currentFrameDamage : ℚ
  currentKnockBackFrameCount : Nat
deriving DecidableEq, Repr

/-- Modelled from the spec: the UnitEntity constructor (the class file
itself is not among the available sources).  A freshly constructed
entity carries its unit type and side and starts IDLE, unengaged, with
zeroed numeric fields; id, health and maxHealth are overwritten by the
spawn code before the entity becomes visible. -/
def UnitEntity.fresh (unitId : Nat) (isPlayer : Bool) : UnitEntity :=
  { id := 0
    unitId := unitId
    isPlayer := isPlayer
    state := AttackableState.IDLE
    currentHealth := 0
    maxHealth := 0
    distance := 0
    engagedEntity := none
    currentFrameDamage := 0
    currentKnockBackFrameCount := 0 }

/-- The three pure policy queries of BattleLogicDelegate.  The
notification methods return nothing and do not influence the
simulation; the cost notification is recorded in the engine state. -/
structure BattleLogicDelegate where
  shouldDamage : UnitEntity → UnitEntity → Bool
  shouldUnitWalk : UnitEntity → Bool
  shouldEngageAttackableEntity : UnitEntity → UnitEntity → Bool

/-- The part of StageMaster the engine reads: the AI wave schedule,
frame number to the unit-type ids spawned at exactly that frame. -/
structure StageMaster where
  waves : List (Nat × List Nat)

/-- Insertion-ordered map with overwrite-on-set semantics, as used for
the Map caches: a set prepends, a get takes the most recent binding. -/
def mapSet {α : Type} (m : List (Nat × α)) (k : Nat) (v : α) : List (Nat × α) :=
  (k, v) :: m

/-- Lookup in the insertion-ordered map. -/
def mapGet {α : Type} (m : List (Nat × α)) (k : Nat) : Option α :=
  (m.find? (fun p => p.1 = k)).map (fun p => p.2)

/-- The whole mutable state of a BattleLogic instance. -/
structure BattleLogic where
  config : BattleLogicConfig
  delegator : Option BattleLogicDelegate
  availableCost : ℚ
  nextEntityId : Nat
  unitEntities : List UnitEntity
  unitMasterCache : List (Nat × UnitMaster)
  aiWaveCache : List (Nat × List Nat)
  passedFrameCount : Nat
  spawnRequestedUnitUnitIds : List (Nat × Bool)
  player : List Nat
  costLog : List (ℚ × ℚ × List Nat)

/-- A freshly constructed BattleLogic, before init. -/
def BattleLogic.new : BattleLogic :=
  { config := {}
    delegator := none
    availableCost := 0
    nextEntityId := 0
    unitEntities := []
    unitMasterCache := []
    aiWaveCache := []
    passedFrameCount := 0
    spawnRequestedUnitUnitIds := []
    player := []
    costLog := [] }

/-- The parameters of init. -/
structure InitParams where
  delegator : BattleLogicDelegate
  stageMaster : StageMaster
  player : List Nat
  unitMasters : List UnitMaster
  config : Option BattleLogicConfig

/-- init: installs config (when given), delegate and player roster,
rebuilds the unit-master cache from scratch and adds the stage's wave
entries to the (never cleared) AI wave cache. -/
def BattleLogic.init (s : BattleLogic) (p : InitParams) : BattleLogic :=
  let config := match p.config with
    | some c => c
    | none => s.config
  let umc := p.unitMasters.foldl (fun m u => mapSet m u.unitId u) []
  let awc := p.stageMaster.waves.foldl (fun m kv => mapSet m kv.1 kv.2) s.aiWaveCache
  { s with
    config := config
    delegator := some p.delegator
    player := p.player
    unitMasterCache := umc
    aiWaveCache := awc }

/-- requestSpawn: pure enqueue of an intent. -/
def BattleLogic.requestSpawn (s : BattleLogic) (unitId : Nat) (isPlayer : Bool) : BattleLogic :=
  { s with spawnRequestedUnitUnitIds := s.spawnRequestedUnitUnitIds ++ [(unitId, isPlayer)] }

/-- updateAvailableCost: clamp the new cost above by the cap, store it,
and (when a delegate is attached) notify it together with the cap and
the currently affordable player unit types. -/
def BattleLogic.updateAvailableCost (s : BattleLogic) (newCost : ℚ) : BattleLogic :=
  let cost := if newCost > s.config.maxAvailableCost then s.config.maxAvailableCost else newCost
  let s1 := { s with availableCost := cost }
  match s1.delegator with
  | none => s1
  | some _ =>
    let avail := s1.player.filter (fun uid =>
      match mapGet s1.unitMasterCache uid with
      | none => false
      | some m => decide (s1.availableCost ≥ m.cost))
    { s1 with costLog := s1.costLog ++ [(s1.availableCost, s1.config.maxAvailableCost, avail)] }

/-- updateAISpawn: enqueue one AI-side request per unit-type id listed
in the wave cache under the current frame counter. -/
def BattleLogic.updateAISpawn (s : BattleLogic) : BattleLogic :=
  match mapGet s.aiWaveCache s.passedFrameCount with
  | none => s
  | some waves =>
    { s with spawnRequestedUnitUnitIds :=
        s.spawnRequestedUnitUnitIds ++ waves.map (fun uid => (uid, false)) }

/-- Accumulator of the spawn-request drain: the running local cost
counter, the entity array and the next entity id. -/
structure SpawnAcc where
  tmpCost : ℚ
  entities : List UnitEntity
  nextEntityId : Nat

/-- One spawn request: drop silently when the master is missing, gate
player requests on the running cost counter, instantiate the entity. -/
def spawnStep (umc : List (Nat × UnitMaster)) (acc : SpawnAcc) (req : Nat × Bool) : SpawnAcc :=
  match mapGet umc req.1 with
  | none => acc
  | some master =>
    if req.2 ∧ acc.tmpCost - master.cost < 0 then acc
    else
      let cost1 := if req.2 then acc.tmpCost - master.cost else acc.tmpCost
      let e0 := UnitEntity.fresh req.1 req.2
      let e := { e0 with
        id := acc.nextEntityId
        maxHealth := master.maxHealth
        currentHealth := master.maxHealth
        state := AttackableState.IDLE }
      { tmpCost := cost1
        entities := acc.entities ++ [e]
        nextEntityId := acc.nextEntityId + 1 }

/-- updateSpawnRequest: drain the whole pending queue in enqueue order
against a local cost counter, refresh the cost once, clear the queue. -/
def BattleLogic.updateSpawnRequest (s : BattleLogic) : BattleLogic :=
  if s.spawnRequestedUnitUnitIds = [] then s
  else
    let a := s.spawnRequestedUnitUnitIds.foldl (spawnStep s.unitMasterCache)
      { tmpCost := s.availableCost
        entities := s.unitEntities
        nextEntityId := s.nextEntityId }
    let s1 := { s with unitEntities := a.entities, nextEntityId := a.nextEntityId }
    let s2 := s1.updateAvailableCost a.tmpCost
    { s2 with spawnRequestedUnitUnitIds := [] }

/-- Replace the first entity carrying the given id (the object the
TypeScript reference points at). -/
def modifyById (tid : Nat) (f : UnitEntity → UnitEntity) : List UnitEntity → List UnitEntity
  | [] => []
  | e :: rest => if e.id = tid then f e :: rest else e :: modifyById tid f rest

/-- updateDamage: when the unit has an engaged target and the delegate
(default yes when absent) approves, subtract the attacker's power from
the target's health and add it to the target's frame damage.  A target
no longer in the collection is treated as no target. -/
def updateDamage (deleg : Option BattleLogicDelegate) (es : List UnitEntity)
    (unit : UnitEntity) (master : UnitMaster) : List UnitEntity :=
  match unit.engagedEntity with
  | none => es
  | some tid =>
    match es.find? (fun t => t.id = tid) with
    | none => es
    | some target =>
      let approved := match deleg with
        | none => true
        | some d => d.shouldDamage unit target
      if approved then
        modifyById tid (fun t =>
          { t with
            currentHealth := t.currentHealth - master.power
            currentFrameDamage := t.currentFrameDamage + master.power }) es
      else es

/-- updateDistance: knocked-back units retreat and count knockback
frames; otherwise the counter resets and IDLE units walk when the
delegate (default yes when absent) approves. -/
def updateDistance (deleg : Option BattleLogicDelegate)
    (unit : UnitEntity) (master : UnitMaster) : UnitEntity :=
  if unit.state = AttackableState.KNOCK_BACK then
    { unit with
      distance := unit.distance - master.knockBackSpeed
      currentKnockBackFrameCount := unit.currentKnockBackFrameCount + 1 }
  else
    let unit1 := { unit with currentKnockBackFrameCount := 0 }
    if unit1.state = AttackableState.IDLE then
      match deleg with
      | some d =>
        if d.shouldUnitWalk unit1 then
          { unit1 with distance := unit1.distance + master.speed }
        else unit1
      | none => { unit1 with distance := unit1.distance + master.speed }
    else unit1

/-- Iterate a step function over the indices of the entity array, the
shape of all the for loops of the engine (fuel is the array length,
which no step changes). -/
def iterIdx (step : List UnitEntity → Nat → List UnitEntity) :
    Nat → Nat → List UnitEntity → List UnitEntity
  | 0, _, es => es
  | fuel + 1, i, es => iterIdx step fuel (i + 1) (step es i)

/-- One step of the parameter-update loop: look the unit and its master
up, apply damage to its engaged target, then movement to itself. -/
def paramStepAt (deleg : Option BattleLogicDelegate) (umc : List (Nat × UnitMaster))
    (es : List UnitEntity) (i : Nat) : List UnitEntity :=
  match es[i]? with
  | none => es
  | some unit =>
    match mapGet umc unit.unitId with
    | none => es
    | some master =>
      let es1 := updateDamage deleg es unit master
      match es1[i]? with
      | none => es1
      | some unit1 => es1.set i (updateDistance deleg unit1 master)

/-- updateEntityParameter: damage then movement for every entity whose
master is present. -/
def updateEntityParameter (deleg : Option BattleLogicDelegate)
    (umc : List (Nat × UnitMaster)) (es : List UnitEntity) : List UnitEntity :=
  iterIdx (paramStepAt deleg umc) es.length 0 es

/-- One step of a state-resolution loop: resolve the entity at the
index when its state (at the moment the loop reaches it) matches. -/
def stepAt (cond : AttackableState) (resolve : List UnitEntity → UnitEntity → UnitEntity)
    (es : List UnitEntity) (i : Nat) : List UnitEntity :=
  match es[i]? with
  | none => es
  | some e => if e.state = cond then es.set i (resolve es e) else es

/-- One state-resolution loop over the whole array. -/
def statePass (cond : AttackableState)
    (resolve : List UnitEntity → UnitEntity → UnitEntity)
    (es : List UnitEntity) : List UnitEntity :=
  iterIdx (stepAt cond resolve) es.length 0 es

/-- KNOCK_BACK resolution: always clear the engagement; with the master
present and the knockback duration elapsed, die below one health,
otherwise return to IDLE. -/
def updateUnitKnockBackState (umc : List (Nat × UnitMaster)) (unit : UnitEntity) : UnitEntity :=
  let unit1 := { unit with engagedEntity := none }
  match mapGet umc unit1.unitId with
  | none => unit1
  | some master =>
    if unit1.currentKnockBackFrameCount < master.knockBackFrames then unit1
    else if unit1.currentHealth < 1 then { unit1 with state := AttackableState.DEAD }
    else { unit1 with state := AttackableState.IDLE }

/-- The knockback health-threshold ladder: fire on the first configured
fraction of maxHealth that this frame's damage crossed downward. -/
def knockBackLadder (oldHealth : ℚ) : List ℚ → UnitEntity → UnitEntity
  | [], unit => unit
  | rate :: rest, unit =>
    let threashold := unit.maxHealth * rate
    if unit.currentHealth ≥ threashold then knockBackLadder oldHealth rest unit
    else if oldHealth ≥ threashold then
      { unit with engagedEntity := none, state := AttackableState.KNOCK_BACK }
    else knockBackLadder oldHealth rest unit

/-- The disengage half of ENGAGED resolution: fall back to IDLE when
the engaged target is dead or knocked back (a target compacted out of
the collection was dead). -/
def engagedIdleCheck (es : List UnitEntity) (unit : UnitEntity) : UnitEntity :=
  match unit.engagedEntity with
  | none => unit
  | some tid =>
    match es.find? (fun t => t.id = tid) with
    | none => { unit with engagedEntity := none, state := AttackableState.IDLE }
    | some target =>
      if target.currentHealth < 1 ∨ target.state = AttackableState.KNOCK_BACK then
        { unit with engagedEntity := none, state := AttackableState.IDLE }
      else unit

/-- ENGAGED resolution: the disengage check, then the threshold ladder
evaluated regardless of the disengage outcome. -/
def updateUnitEngagedState (cfg : BattleLogicConfig) (es : List UnitEntity)
    (unit : UnitEntity) : UnitEntity :=
  let unit1 := engagedIdleCheck es unit
  let oldHealth := unit1.currentHealth + unit1.currentFrameDamage
  knockBackLadder oldHealth cfg.knockBackHealthThreasholds unit1

/-- IDLE resolution scan: first opposing-side IDLE or ENGAGED target
the delegate approves; without a delegate the condition never holds. -/
def idleScan (deleg : Option BattleLogicDelegate) (unit : UnitEntity) :
    List UnitEntity → UnitEntity
  | [] => unit
  | target :: rest =>
    if unit.isPlayer = target.isPlayer then idleScan deleg unit rest
    else if target.state ≠ AttackableState.IDLE ∧ target.state ≠ AttackableState.ENGAGED then
      idleScan deleg unit rest
    else
      match deleg with
      | some d =>
        if d.shouldEngageAttackableEntity unit target then
          { unit with engagedEntity := some target.id, state := AttackableState.ENGAGED }
        else idleScan deleg unit rest
      | none => idleScan deleg unit rest

/-- IDLE resolution of one unit against the current collection. -/
def updateUnitIdleState (deleg : Option BattleLogicDelegate) (es : List UnitEntity)
    (unit : UnitEntity) : UnitEntity :=
  idleScan deleg unit es

/-- updateEntityState: the three state-resolution loops, KNOCK_BACK
first, then ENGAGED, then IDLE, each testing the entity state at the
moment its loop reaches the entity.  The recorded old states feed only
the state-changed notifications, which carry no tracked data. -/
def BattleLogic.updateEntityState (s : BattleLogic) : BattleLogic :=
  let es1 := statePass AttackableState.KNOCK_BACK
    (fun _ e => updateUnitKnockBackState s.unitMasterCache e) s.unitEntities
  let es2 := statePass AttackableState.ENGAGED
    (fun es e => updateUnitEngagedState s.config es e) es1
  let es3 := statePass AttackableState.IDLE
    (fun es e => updateUnitIdleState s.delegator es e) es2
  { s with unitEntities := es3 }

/-- updatePostProcess: drop every DEAD entity, reset the per-frame
damage of the survivors. -/
def BattleLogic.updatePostProcess (s : BattleLogic) : BattleLogic :=
  let active := s.unitEntities.filter (fun e => e.state ≠ AttackableState.DEAD)
  { s with unitEntities := active.map (fun e => { e with currentFrameDamage := 0 }) }

/-- The first four phases of a frame: cost recovery, AI wave
enqueueing, spawn-request draining, then the parameter update over
every entity. -/
def BattleLogic.updateMid (s : BattleLogic) : BattleLogic :=
  let s3 := ((s.updateAvailableCost
    (s.availableCost + s.config.costRecoveryPerFrame)).updateAISpawn).updateSpawnRequest
  { s3 with unitEntities :=
    updateEntityParameter s3.delegator s3.unitMasterCache s3.unitEntities }

/-- update: one full frame, the four leading phases followed by state
resolution, compaction, and the frame-counter increment. -/
def BattleLogic.update (s : BattleLogic) : BattleLogic :=
  let s6 := ((s.updateMid).updateEntityState).updatePostProcess
  { s6 with passedFrameCount := s6.passedFrameCount + 1 }

/-- The public operations an external caller can perform. -/
inductive Op
  | init (p : InitParams)
  | requestSpawn (unitId : Nat) (isPlayer : Bool)
  | update

/-- Apply one public operation. -/
def applyOp (s : BattleLogic) : Op → BattleLogic
  | Op.init p => s.init p
  | Op.requestSpawn uid ip => s.requestSpawn uid ip
  | Op.update => s.update

/-- Apply a sequence of public operations. -/
def applyOps (s : BattleLogic) (ops : List Op) : BattleLogic :=
  ops.foldl applyOp s

/-! ### Concrete material for the scenario runs -/

/-- A delegate approving every policy question. -/
def allTrueDelegate : BattleLogicDelegate :=
  { shouldDamage := fun _ _ => true
    shouldUnitWalk := fun _ => true
    shouldEngageAttackableEntity := fun _ _ => true }

/-- Unit master of the Scenario C duel: power 10, maxHealth 100. -/
def masterC : UnitMaster :=
  { unitId := 1, cost := 0, maxHealth := 100, power := 10, speed := 1,
    knockBackSpeed := 2, knockBackFrames := 3 }

/-- Scenario C initialization: thresholds [1/2]. -/
def paramsC : InitParams :=
  { delegator := allTrueDelegate
    stageMaster := { waves := [] }
    player := [1]
    unitMasters := [masterC]
    config := some { costRecoveryPerFrame := 0, maxAvailableCost := 100,
                     knockBackHealthThreasholds := [1/2] } }

/-- Scenario C after k frames: init, both spawn requests, k updates. -/
def scenarioC (k : Nat) : BattleLogic :=
  applyOps BattleLogic.new
    (Op.init paramsC :: Op.requestSpawn 1 true :: Op.requestSpawn 1 false ::
      List.replicate k Op.update)

/-- The fields untouched by the parameter-update phase (everything but
health, frame damage, distance and the knockback counter). -/
def pskel (e : UnitEntity) : Nat × Nat × Bool × AttackableState × Option Nat × ℚ :=
  (e.id, e.unitId, e.isPlayer, e.state, e.engagedEntity, e.maxHealth)

/-- The fields untouched by the state-resolution phase (everything but
state and engagement). -/
def sskel (e : UnitEntity) : Nat × Nat × Bool × ℚ × ℚ × ℚ × ℚ × Nat :=
  (e.id, e.unitId, e.isPlayer, e.currentHealth, e.maxHealth, e.currentFrameDamage,
    e.distance, e.currentKnockBackFrameCount)

/-! ### Invariants of the engine state -/

/-- Every live id is below the next id to assign. -/
def IdsBound (es : List UnitEntity) (n : Nat) : Prop :=
  ∀ e ∈ es, e.id < n

/-- Live entity ids are pairwise distinct. -/
def IdsUnique (es : List UnitEntity) : Prop :=
  es.Pairwise (fun a b => a.id ≠ b.id)

/-- No live entity is DEAD. -/
def NoDead (es : List UnitEntity) : Prop :=
  ∀ e ∈ es, e.state ≠ AttackableState.DEAD

/-- Every engagement is held by an ENGAGED entity and references a live
entity of the opposing side. -/
def EngagementInv (es : List UnitEntity) : Prop :=
  ∀ e ∈ es, ∀ tid, e.engagedEntity = some tid →
    e.state = AttackableState.ENGAGED ∧
    ∃ t ∈ es, t.id = tid ∧ t.isPlayer = !e.isPlayer

/-- The global reachable-state invariant. -/
def GInv (s : BattleLogic) : Prop :=
  IdsBound s.unitEntities s.nextEntityId ∧ IdsUnique s.unitEntities ∧
  NoDead s.unitEntities ∧ EngagementInv s.unitEntities

/-! ### Further concrete scenario material -/

/-- Configuration with a negative cost cap and non-negative recovery. -/
def paramsNegativeCap : InitParams :=
  { delegator := allTrueDelegate
    stageMaster := { waves := [] }
    player := []
    unitMasters := []
    config := some { costRecoveryPerFrame := 0, maxAvailableCost := -1,
                     knockBackHealthThreasholds := [] } }

/-- The engine after init with the negative cap and one update. -/
def stateNegativeCap : BattleLogic :=
  applyOps BattleLogic.new [Op.init paramsNegativeCap, Op.update]

/-- Unit master whose knockback lasts six frames. -/
def masterC4 : UnitMaster :=
  { unitId := 1, cost := 0, maxHealth := 100, power := 10, speed := 1,
    knockBackSpeed := 2, knockBackFrames := 6 }

/-- A knocked-back player entity whose knockback duration elapses on
the next frame (the parameter pass will raise the counter to 6). -/
def entityKB : UnitEntity :=
  { id := 0, unitId := 1, isPlayer := true, state := AttackableState.KNOCK_BACK,
    currentHealth := 10, maxHealth := 100, distance := 50, engagedEntity := none,
    currentFrameDamage := 0, currentKnockBackFrameCount := 5 }

/-- An idle AI entity opposing entityKB. -/
def entityFoe : UnitEntity :=
  { id := 1, unitId := 1, isPlayer := false, state := AttackableState.IDLE,
    currentHealth := 100, maxHealth := 100, distance := 0, engagedEntity := none,
    currentFrameDamage := 0, currentKnockBackFrameCount := 0 }

/-- Engine state exercising same-frame KNOCK_BACK to IDLE to ENGAGED. -/
def stateC4 : BattleLogic :=
  { BattleLogic.new with
    delegator := some allTrueDelegate
    unitMasterCache := [(1, masterC4)]
    unitEntities := [entityKB, entityFoe]
    nextEntityId := 2 }

/-- An idle player entity with an eligible opposing target. -/
def entityP5 : UnitEntity :=
  { id := 0, unitId := 1, isPlayer := true, state := AttackableState.IDLE,
    currentHealth := 100, maxHealth := 100, distance := 0, engagedEntity := none,
    currentFrameDamage := 0, currentKnockBackFrameCount := 0 }

/-- An idle AI entity opposing entityP5. -/
def entityA5 : UnitEntity :=
  { id := 1, unitId := 1, isPlayer := false, state := AttackableState.IDLE,
    currentHealth := 100, maxHealth := 100, distance := 0, engagedEntity := none,
    currentFrameDamage := 0, currentKnockBackFrameCount := 0 }

/-- Engine state with two mutually eligible idle entities and no
delegate attached. -/
def stateNoDelegate : BattleLogic :=
  { BattleLogic.new with
    delegator := none
    unitMasterCache := [(1, masterC)]
    unitEntities := [entityP5, entityA5]
    nextEntityId := 2 }

/-- An engaged player entity already below one health. -/
def entityNeg0 : UnitEntity :=
  { id := 0, unitId := 1, isPlayer := true, state := AttackableState.ENGAGED,
    currentHealth := -5, maxHealth := 100, distance := 0, engagedEntity := some 1,
    currentFrameDamage := 0, currentKnockBackFrameCount := 0 }

/-- An engaged AI entity already below one health. -/
def entityNeg1 : UnitEntity :=
  { id := 1, unitId := 1, isPlayer := false, state := AttackableState.ENGAGED,
    currentHealth := -5, maxHealth := 100, distance := 0, engagedEntity := some 0,
    currentFrameDamage := 0, currentKnockBackFrameCount := 0 }

/-- Engine state with two mutually engaged entities below one health
and no knockback thresholds configured. -/
def stateNegHealth : BattleLogic :=
  { BattleLogic.new with
    delegator := some allTrueDelegate
    config := { costRecoveryPerFrame := 0, maxAvailableCost := 100,
                knockBackHealthThreasholds := [] }
    unitMasterCache := [(1, masterC)]
    unitEntities := [entityNeg0, entityNeg1]
    nextEntityId := 2 }

/-- Iterated update on an arbitrary start state. -/
def iterUpdate (s : BattleLogic) (k : Nat) : BattleLogic :=
  applyOps s (List.replicate k Op.update)

/-- Unit master of the Scenario D wave. -/
def master7 : UnitMaster :=
  { unitId := 7, cost := 5, maxHealth := 30, power := 1, speed := 1,
    knockBackSpeed := 1, knockBackFrames := 2 }

/-- Scenario D initialization: one wave entry at frame 3. -/
def paramsD : InitParams :=
  { delegator := allTrueDelegate
    stageMaster := { waves := [(3, [7])] }
    player := []
    unitMasters := [master7]
    config := some { costRecoveryPerFrame := 0, maxAvailableCost := 100,
                     knockBackHealthThreasholds := [] } }

/-- Scenario D after k frames. -/
def scenarioD (k : Nat) : BattleLogic :=
  applyOps BattleLogic.new (Op.init paramsD :: List.replicate k Op.update)

/-- The player entity of Scenario C as it stands after the first
update: spawned, walked once, and mutually engaged. -/
def entityC9 : UnitEntity :=
  { id := 0, unitId := 1, isPlayer := true, state := AttackableState.ENGAGED,
    currentHealth := 100, maxHealth := 100, distance := 1, engagedEntity := some 1,
    currentFrameDamage := 0, currentKnockBackFrameCount := 0 }

/-- Non-negative recovery and a non-negative cap. -/
def ConfigOk (c : BattleLogicConfig) : Prop :=
  0 ≤ c.costRecoveryPerFrame ∧ 0 ≤ c.maxAvailableCost

/-- The hypotheses of the cost-safety claim on one operation: an init
must install a well-formed configuration (when it carries one) and
non-negative unit costs; the other operations are unrestricted. -/
def OkOp : Op → Prop
  | Op.init p =>
    (match p.config with
     | none => True
     | some c => ConfigOk c) ∧
    ∀ m ∈ p.unitMasters, 0 ≤ m.cost
  | Op.requestSpawn _ _ => True
  | Op.update => True

/-- The cost-safety invariant: the stored cost is non-negative, the
current configuration is well formed, and every recorded cost
notification carried a non-negative value at most its cap. -/
def CostInv (s : BattleLogic) : Prop :=
  0 ≤ s.availableCost ∧ ConfigOk s.config ∧
  ∀ p ∈ s.costLog, 0 ≤ p.1 ∧ p.1 ≤ p.2.1

/-- Unit master that kills an opponent in a single exchange. -/
def masterKill : UnitMaster :=
  { unitId := 1, cost := 0, maxHealth := 100, power := 200, speed := 1,
    knockBackSpeed := 1, knockBackFrames := 0 }

/-- Initialization for the kill scenario: threshold at full health so
the lethal blow also knocks back, and a zero-frame knockback so the
victim dies on the following frame. -/
def paramsKill : InitParams :=
  { delegator := allTrueDelegate
    stageMaster := { waves := [] }
    player := [1]
    unitMasters := [masterKill]
    config := some { costRecoveryPerFrame := 0, maxAvailableCost := 100,
                     knockBackHealthThreasholds := [1] } }

/-- Operations whose final state has an empty battlefield with entity
id 0 retired below the next id. -/
def opsKill : List Op :=
  [Op.init paramsKill, Op.requestSpawn 1 true, Op.requestSpawn 1 false,
   Op.update, Op.update, Op.update]

/-- The Scenario C configuration on its own. -/
def cfgC : BattleLogicConfig :=
  { costRecoveryPerFrame := 0, maxAvailableCost := 100,
    knockBackHealthThreasholds := [1/2] }

/-- An engaged entity whose frame damage just crossed the half-health
threshold downward (50 to 40 against maxHealth 100). -/
def entityC1w : UnitEntity :=
  { id := 0, unitId := 1, isPlayer := true, state := AttackableState.ENGAGED,
    currentHealth := 40, maxHealth := 100, distance := 1, engagedEntity := some 1,
    currentFrameDamage := 10, currentKnockBackFrameCount := 0 }

/-! ### Generic lemmas about the loop combinators -/

theorem iterIdx_inv (step : List UnitEntity → Nat → List UnitEntity)
    (Q : Nat → List UnitEntity → Prop)
    (hstep : ∀ j es, Q j es → Q (j + 1) (step es j)) :
    ∀ fuel i es, Q i es → Q (i + fuel) (iterIdx step fuel i es) := by
  intro fuel
  induction fuel with
  | zero => intro i es h; simpa using h
  | succ n ih =>
    intro i es h
    have h1 := ih (i + 1) (step es i) (hstep i es h)
    have harith : i + 1 + n = i + (n + 1) := by omega
    rw [harith] at h1
    simpa [iterIdx] using h1

theorem modifyById_length (tid : Nat) (f : UnitEntity → UnitEntity) :
    ∀ es : List UnitEntity, (modifyById tid f es).length = es.length := by
  intro es
  induction es with
  | nil => rfl
  | cons e rest ih =>
    by_cases h : e.id = tid <;> simp [modifyById, h, ih]

theorem modifyById_getElem (tid : Nat) (f : UnitEntity → UnitEntity) :
    ∀ (es : List UnitEntity) (j : Nat),
      (modifyById tid f es)[j]? = es[j]? ∨
      ∃ e, es[j]? = some e ∧ e.id = tid ∧ (modifyById tid f es)[j]? = some (f e) := by
  intro es
  induction es with
  | nil => intro j; left; simp [modifyById]
  | cons e rest ih =>
    intro j
    by_cases h : e.id = tid
    · cases j with
      | zero => right; exact ⟨e, by simp [modifyById, h], h, by simp [modifyById, h]⟩
      | succ n => left; simp [modifyById, h]
    · cases j with
      | zero => left; simp [modifyById, h]
      | succ n =>
        rcases ih n with h1 | ⟨e1, he1, hid, he2⟩
        · left; simpa [modifyById, h] using h1
        · right; exact ⟨e1, by simpa [modifyById, h] using he1, hid,
            by simpa [modifyById, h] using he2⟩

theorem updateDamage_length (deleg : Option BattleLogicDelegate) (es : List UnitEntity)
    (unit : UnitEntity) (master : UnitMaster) :
    (updateDamage deleg es unit master).length = es.length := by
  unfold updateDamage
  split
  · rfl
  · split
    · rfl
    · dsimp only
      split
      · exact modifyById_length _ _ es
      · rfl

theorem updateDamage_getElem (deleg : Option BattleLogicDelegate) (es : List UnitEntity)
    (unit : UnitEntity) (master : UnitMaster) (j : Nat) :
    (updateDamage deleg es unit master)[j]? = es[j]? ∨
    ∃ e, es[j]? = some e ∧
      (updateDamage deleg es unit master)[j]? =
        some { e with
          currentHealth := e.currentHealth - master.power
          currentFrameDamage := e.currentFrameDamage + master.power } := by
  unfold updateDamage
  split
  · left; rfl
  · split
    · left; rfl
    · dsimp only
      split
      · rcases modifyById_getElem _ _ es j with h1 | ⟨e, he, _, he2⟩
        · left; exact h1
        · right; exact ⟨e, he, he2⟩
      · left; rfl

theorem stepAt_length (cond : AttackableState)
    (resolve : List UnitEntity → UnitEntity → UnitEntity)
    (es : List UnitEntity) (i : Nat) :
    (stepAt cond resolve es i).length = es.length := by
  unfold stepAt
  split
  · rfl
  · split
    · exact es.length_set i _
    · rfl

theorem stepAt_getElem_ne (cond : AttackableState)
    (resolve : List UnitEntity → UnitEntity → UnitEntity)
    (es : List UnitEntity) (i j : Nat) (hij : i ≠ j) :
    (stepAt cond resolve es i)[j]? = es[j]? := by
  unfold stepAt
  split
  · rfl
  · split
    · exact List.getElem?_set_ne hij
    · rfl

theorem paramStepAt_length (deleg : Option BattleLogicDelegate)
    (umc : List (Nat × UnitMaster)) (es : List UnitEntity) (i : Nat) :
    (paramStepAt deleg umc es i).length = es.length := by
  unfold paramStepAt
  split
  · rfl
  · split
    · rfl
    · dsimp only
      split
      · exact updateDamage_length deleg es _ _
      · rw [List.length_set]
        exact updateDamage_length deleg es _ _

theorem statePass_length (cond : AttackableState)
    (resolve : List UnitEntity → UnitEntity → UnitEntity) (es : List UnitEntity) :
    (statePass cond resolve es).length = es.length := by
  have h := iterIdx_inv (stepAt cond resolve) (fun _ es2 => es2.length = es.length)
    (fun j es2 hq => by dsimp only; rw [stepAt_length]; exact hq) es.length 0 es rfl
  exact h

theorem updateEntityParameter_length (deleg : Option BattleLogicDelegate)
    (umc : List (Nat × UnitMaster)) (es : List UnitEntity) :
    (updateEntityParameter deleg umc es).length = es.length := by
  have h := iterIdx_inv (paramStepAt deleg umc) (fun _ es2 => es2.length = es.length)
    (fun j es2 hq => by dsimp only; rw [paramStepAt_length]; exact hq) es.length 0 es rfl
  exact h

/-! ### Characterizations of the per-entity resolvers -/

theorem knockBackLadder_cases (oldHealth : ℚ) (rates : List ℚ) (unit : UnitEntity) :
    knockBackLadder oldHealth rates unit = unit ∨
    knockBackLadder oldHealth rates unit =
      { unit with engagedEntity := none, state := AttackableState.KNOCK_BACK } := by
  induction rates with
  | nil => left; rfl
  | cons r rest ih =>
    unfold knockBackLadder
    dsimp only
    split
    · exact ih
    · split
      · right; rfl
      · exact ih

theorem knockBackLadder_state_iff (oldHealth : ℚ) (rates : List ℚ) (unit : UnitEntity)
    (h : unit.state ≠ AttackableState.KNOCK_BACK) :
    (knockBackLadder oldHealth rates unit).state = AttackableState.KNOCK_BACK ↔
    ∃ rate ∈ rates, unit.currentHealth < unit.maxHealth * rate ∧
      oldHealth ≥ unit.maxHealth * rate := by
  induction rates with
  | nil => simpa [knockBackLadder] using h
  | cons r rest ih =>
    unfold knockBackLadder
    dsimp only
    by_cases h1 : unit.currentHealth ≥ unit.maxHealth * r
    · rw [if_pos h1, ih]
      constructor
      · rintro ⟨rate, hmem, hlt, hge⟩
        exact ⟨rate, List.mem_cons_of_mem r hmem, hlt, hge⟩
      · rintro ⟨rate, hmem, hlt, hge⟩
        rcases List.mem_cons.mp hmem with heq | hmem2
        · exact absurd hlt (by rw [heq]; exact not_lt.mpr h1)
        · exact ⟨rate, hmem2, hlt, hge⟩
    · rw [if_neg h1]
      by_cases h2 : oldHealth ≥ unit.maxHealth * r
      · rw [if_pos h2]
        constructor
        · intro _
          exact ⟨r, List.mem_cons_self r rest, not_le.mp h1, h2⟩
        · intro _
          rfl
      · rw [if_neg h2, ih]
        constructor
        · rintro ⟨rate, hmem, hlt, hge⟩
          exact ⟨rate, List.mem_cons_of_mem r hmem, hlt, hge⟩
        · rintro ⟨rate, hmem, hlt, hge⟩
          rcases List.mem_cons.mp hmem with heq | hmem2
          · exact absurd hge (by rw [heq]; exact h2)
          · exact ⟨rate, hmem2, hlt, hge⟩

theorem engagedIdleCheck_cases (es : List UnitEntity) (unit : UnitEntity) :
    engagedIdleCheck es unit = unit ∨
    engagedIdleCheck es unit = { unit with engagedEntity := none, state := AttackableState.IDLE } := by
  unfold engagedIdleCheck
  split
  · left; rfl
  · split
    · right; rfl
    · split
      · right; rfl
      · left; rfl

theorem engagedIdleCheck_keep (es : List UnitEntity) (unit : UnitEntity) (tid : Nat)
    (h : (engagedIdleCheck es unit).engagedEntity = some tid) :
    engagedIdleCheck es unit = unit ∧ unit.engagedEntity = some tid ∧
    ∃ target, es.find? (fun t => t.id = tid) = some target ∧
      target.currentHealth ≥ 1 ∧ target.state ≠ AttackableState.KNOCK_BACK := by
  rcases hE : unit.engagedEntity with _ | tid0
  · simp only [engagedIdleCheck, hE] at h
    simp [hE] at h
  · rcases hF : es.find? (fun t => t.id = tid0) with _ | target
    · simp only [engagedIdleCheck, hE, hF] at h
      simp at h
    · by_cases hC : target.currentHealth < 1 ∨ target.state = AttackableState.KNOCK_BACK
      · simp only [engagedIdleCheck, hE, hF, if_pos hC] at h
        simp at h
      · have hC2 := hC
        simp only [engagedIdleCheck, hE, hF, if_neg hC, Option.some.injEq] at h
        subst h
        push_neg at hC
        exact ⟨by simp only [engagedIdleCheck, hE, hF, if_neg hC2], rfl,
          target, hF, hC.1, hC.2⟩

theorem idleScan_none (unit : UnitEntity) :
    ∀ es : List UnitEntity, idleScan none unit es = unit := by
  intro es
  induction es with
  | nil => rfl
  | cons t rest ih =>
    unfold idleScan
    split
    · exact ih
    · split
      · exact ih
      · exact ih

theorem idleScan_cases (deleg : Option BattleLogicDelegate) (unit : UnitEntity) :
    ∀ es : List UnitEntity,
      idleScan deleg unit es = unit ∨
      ∃ t ∈ es, t.isPlayer ≠ unit.isPlayer ∧
        (t.state = AttackableState.IDLE ∨ t.state = AttackableState.ENGAGED) ∧
        idleScan deleg unit es =
          { unit with engagedEntity := some t.id, state := AttackableState.ENGAGED } := by
  intro es
  induction es with
  | nil => left; rfl
  | cons t rest ih =>
    unfold idleScan
    by_cases hside : unit.isPlayer = t.isPlayer
    · rw [if_pos hside]
      rcases ih with h1 | ⟨t2, hmem, hs, hst, heq⟩
      · left; exact h1
      · right; exact ⟨t2, List.mem_cons_of_mem t hmem, hs, hst, heq⟩
    · rw [if_neg hside]
      by_cases hstate : t.state ≠ AttackableState.IDLE ∧ t.state ≠ AttackableState.ENGAGED
      · rw [if_pos hstate]
        rcases ih with h1 | ⟨t2, hmem, hs, hst, heq⟩
        · left; exact h1
        · right; exact ⟨t2, List.mem_cons_of_mem t hmem, hs, hst, heq⟩
      · rw [if_neg hstate]
        rcases deleg with _ | d
        · rcases ih with h1 | ⟨t2, hmem, hs, hst, heq⟩
          · left; exact h1
          · right; exact ⟨t2, List.mem_cons_of_mem t hmem, hs, hst, heq⟩
        · dsimp only
          by_cases happ : d.shouldEngageAttackableEntity unit t
          · rw [if_pos happ]
            right
            refine ⟨t, List.mem_cons_self t rest, ?_, ?_, rfl⟩
            · exact fun hh => hside hh.symm
            · rcases not_and_or.mp hstate with h1 | h1
              · exact Or.inl (not_not.mp h1)
              · exact Or.inr (not_not.mp h1)
          · rw [if_neg happ]
            rcases ih with h1 | ⟨t2, hmem, hs, hst, heq⟩
            · left; exact h1
            · right; exact ⟨t2, List.mem_cons_of_mem t hmem, hs, hst, heq⟩

theorem updateUnitKnockBackState_sskel (umc : List (Nat × UnitMaster)) (unit : UnitEntity) :
    sskel (updateUnitKnockBackState umc unit) = sskel unit := by
  unfold updateUnitKnockBackState
  dsimp only
  split
  · rfl
  · split
    · rfl
    · split
      · rfl
      · rfl

theorem updateUnitKnockBackState_engagedEntity (umc : List (Nat × UnitMaster))
    (unit : UnitEntity) :
    (updateUnitKnockBackState umc unit).engagedEntity = none := by
  unfold updateUnitKnockBackState
  dsimp only
  split
  · rfl
  · split
    · rfl
    · split
      · rfl
      · rfl

theorem updateUnitKnockBackState_state_cases (umc : List (Nat × UnitMaster))
    (unit : UnitEntity) :
    (updateUnitKnockBackState umc unit).state = unit.state ∨
    ((updateUnitKnockBackState umc unit).state = AttackableState.DEAD ∧
      unit.currentHealth < 1) ∨
    (updateUnitKnockBackState umc unit).state = AttackableState.IDLE := by
  unfold updateUnitKnockBackState
  dsimp only
  split
  · left; rfl
  · split
    · left; rfl
    · split
      · rename_i hm _ hlt
        right; left; exact ⟨rfl, hlt⟩
      · right; right; rfl

theorem updateUnitKnockBackState_resolve (umc : List (Nat × UnitMaster))
    (unit : UnitEntity) (m : UnitMaster) (hm : mapGet umc unit.unitId = some m) :
    (updateUnitKnockBackState umc unit).state =
      (if unit.currentKnockBackFrameCount < m.knockBackFrames then unit.state
       else if unit.currentHealth < 1 then AttackableState.DEAD
       else AttackableState.IDLE) := by
  unfold updateUnitKnockBackState
  dsimp only
  simp only [hm]
  split
  · rfl
  · split
    · rfl
    · rfl

theorem updateDistance_pskel (deleg : Option BattleLogicDelegate)
    (unit : UnitEntity) (master : UnitMaster) :
    pskel (updateDistance deleg unit master) = pskel unit := by
  unfold updateDistance
  dsimp only
  split
  · rfl
  · split
    · split
      · split
        · rfl
        · rfl
      · rfl
    · rfl

theorem updateDistance_knockback (deleg : Option BattleLogicDelegate)
    (unit : UnitEntity) (master : UnitMaster) (h : unit.state = AttackableState.KNOCK_BACK) :
    (updateDistance deleg unit master).currentKnockBackFrameCount =
      unit.currentKnockBackFrameCount + 1 ∧
    (updateDistance deleg unit master).distance = unit.distance - master.knockBackSpeed := by
  unfold updateDistance
  rw [if_pos h]
  exact ⟨rfl, rfl⟩

theorem updateDistance_idle_noDelegate (unit : UnitEntity) (master : UnitMaster)
    (h : unit.state = AttackableState.IDLE) :
    (updateDistance none unit master).distance = unit.distance + master.speed ∧
    (updateDistance none unit master).currentKnockBackFrameCount = 0 := by
  unfold updateDistance
  rw [if_neg (by rw [h]; intro hc; cases hc)]
  dsimp only
  rw [if_pos (by rw [h] : ({ unit with currentKnockBackFrameCount := 0 } : UnitEntity).state = AttackableState.IDLE)]
  exact ⟨rfl, rfl⟩

theorem updateUnitEngagedState_sskel (cfg : BattleLogicConfig) (es : List UnitEntity)
    (unit : UnitEntity) :
    sskel (updateUnitEngagedState cfg es unit) = sskel unit := by
  unfold updateUnitEngagedState
  rcases engagedIdleCheck_cases es unit with he | he <;>
    rcases knockBackLadder_cases
      ((engagedIdleCheck es unit).currentHealth + (engagedIdleCheck es unit).currentFrameDamage)
      cfg.knockBackHealthThreasholds (engagedIdleCheck es unit) with hl | hl <;>
    rw [hl, he] <;> rfl

theorem updateUnitEngagedState_state_cases (cfg : BattleLogicConfig) (es : List UnitEntity)
    (unit : UnitEntity) :
    (updateUnitEngagedState cfg es unit).state = unit.state ∨
    (updateUnitEngagedState cfg es unit).state = AttackableState.IDLE ∨
    (updateUnitEngagedState cfg es unit).state = AttackableState.KNOCK_BACK := by
  unfold updateUnitEngagedState
  rcases engagedIdleCheck_cases es unit with he | he <;>
    rcases knockBackLadder_cases
      ((engagedIdleCheck es unit).currentHealth + (engagedIdleCheck es unit).currentFrameDamage)
      cfg.knockBackHealthThreasholds (engagedIdleCheck es unit) with hl | hl <;>
    rw [hl, he]
  · left; rfl
  · right; right; rfl
  · right; left; rfl
  · right; right; rfl

theorem updateUnitEngagedState_keep (cfg : BattleLogicConfig) (es : List UnitEntity)
    (unit : UnitEntity) (tid : Nat)
    (h : (updateUnitEngagedState cfg es unit).engagedEntity = some tid) :
    updateUnitEngagedState cfg es unit = unit ∧ unit.engagedEntity = some tid ∧
    ∃ target, es.find? (fun t => t.id = tid) = some target ∧
      target.currentHealth ≥ 1 ∧ target.state ≠ AttackableState.KNOCK_BACK := by
  unfold updateUnitEngagedState at h ⊢
  rcases knockBackLadder_cases
    ((engagedIdleCheck es unit).currentHealth + (engagedIdleCheck es unit).currentFrameDamage)
    cfg.knockBackHealthThreasholds (engagedIdleCheck es unit) with hl | hl
  · rw [hl] at h ⊢
    rcases engagedIdleCheck_keep es unit tid h with ⟨heq, hsome, target, hfind, hh, hkb⟩
    exact ⟨heq, hsome, target, hfind, hh, hkb⟩
  · rw [hl] at h
    simp at h

theorem updateUnitIdleState_cases (deleg : Option BattleLogicDelegate)
    (es : List UnitEntity) (unit : UnitEntity) :
    updateUnitIdleState deleg es unit = unit ∨
    ∃ t ∈ es, t.isPlayer ≠ unit.isPlayer ∧
      (t.state = AttackableState.IDLE ∨ t.state = AttackableState.ENGAGED) ∧
      updateUnitIdleState deleg es unit =
        { unit with engagedEntity := some t.id, state := AttackableState.ENGAGED } := by
  exact idleScan_cases deleg unit es

/-! ### Per-index characterization of a state-resolution pass -/

theorem statePass_spec (cond : AttackableState)
    (resolve : List UnitEntity → UnitEntity → UnitEntity)
    (es : List UnitEntity) (j : Nat) (e : UnitEntity) (h : es[j]? = some e) :
    (e.state ≠ cond ∧ (statePass cond resolve es)[j]? = some e) ∨
    (e.state = cond ∧ ∃ L, (statePass cond resolve es)[j]? = some (resolve L e)) := by
  have hmain := iterIdx_inv (stepAt cond resolve)
    (fun i es2 =>
      es2.length = es.length ∧
      ((i ≤ j ∧ es2[j]? = some e) ∨
       (j < i ∧ ((e.state ≠ cond ∧ es2[j]? = some e) ∨
         (e.state = cond ∧ ∃ L, es2[j]? = some (resolve L e))))))
    (by
      intro i es2 hq
      rcases hq with ⟨hlen, hq⟩
      refine ⟨by rw [stepAt_length]; exact hlen, ?_⟩
      rcases hq with ⟨hij, hj⟩ | ⟨hij, hj⟩
      · by_cases hii : i = j
        · subst hii
          right
          refine ⟨Nat.lt_succ_self i, ?_⟩
          by_cases hst : e.state = cond
          · right
            refine ⟨hst, es2, ?_⟩
            unfold stepAt
            rw [hj]
            dsimp only
            rw [if_pos hst]
            have hjlen : i < es2.length := by
              rcases List.getElem?_eq_some.mp hj with ⟨hh, _⟩
              exact hh
            exact List.getElem?_set_self hjlen
          · left
            refine ⟨hst, ?_⟩
            unfold stepAt
            rw [hj]
            dsimp only
            rw [if_neg hst]
            exact hj
        · left
          have : i + 1 ≤ j := by omega
          exact ⟨this, by rw [stepAt_getElem_ne _ _ _ _ _ hii]; exact hj⟩
      · right
        have hij2 : i ≠ j := by omega
        refine ⟨by omega, ?_⟩
        rcases hj with ⟨hst, hj⟩ | ⟨hst, L, hj⟩
        · left; exact ⟨hst, by rw [stepAt_getElem_ne _ _ _ _ _ hij2]; exact hj⟩
        · right; exact ⟨hst, L, by rw [stepAt_getElem_ne _ _ _ _ _ hij2]; exact hj⟩)
    es.length 0 es ⟨rfl, Or.inl ⟨Nat.zero_le j, h⟩⟩
  have hjlen : j < es.length := by
    rcases List.getElem?_eq_some.mp h with ⟨hh, _⟩
    exact hh
  rcases hmain.2 with ⟨hle, _⟩ | ⟨_, hres⟩
  · omega
  · exact hres

theorem statePass_const_map (cond : AttackableState) (g : UnitEntity → UnitEntity)
    (es : List UnitEntity) :
    statePass cond (fun _ e => g e) es =
      es.map (fun e => if e.state = cond then g e else e) := by
  have hmain := iterIdx_inv (stepAt cond (fun _ e => g e))
    (fun i es2 =>
      es2.length = es.length ∧
      (∀ k, k < i → es2[k]? = (es[k]?).map (fun e => if e.state = cond then g e else e)) ∧
      (∀ k, i ≤ k → es2[k]? = es[k]?))
    (by
      intro i es2 hq
      rcases hq with ⟨hlen, hlt, hge⟩
      refine ⟨by rw [stepAt_length]; exact hlen, ?_, ?_⟩
      · intro k hk
        by_cases hki : k = i
        · subst hki
          have hk2 := hge k (Nat.le_refl k)
          rcases hcase : es[k]? with _ | e
          · rw [hcase] at hk2
            unfold stepAt
            rw [hk2]
            dsimp only
            simp [hk2, hcase]
          · rw [hcase] at hk2
            unfold stepAt
            rw [hk2]
            dsimp only
            by_cases hst : e.state = cond
            · rw [if_pos hst]
              have hklen : k < es2.length := by
                rcases List.getElem?_eq_some.mp hk2 with ⟨hh, _⟩
                exact hh
              rw [List.getElem?_set_self hklen]
              simp [hcase, hst]
            · rw [if_neg hst]
              rw [hk2]
              simp [hcase, hst]
        · have hki2 : k < i := by omega
          rw [stepAt_getElem_ne _ _ _ _ _ (by omega : i ≠ k)]
          exact hlt k hki2
      · intro k hk
        rw [stepAt_getElem_ne _ _ _ _ _ (by omega : i ≠ k)]
        exact hge k (by omega))
    es.length 0 es ⟨rfl, by omega, fun k _ => rfl⟩
  apply List.ext_getElem?
  intro n
  unfold statePass
  by_cases hn : n < es.length
  · rw [hmain.2.1 n (by simpa using hn), List.getElem?_map]
  · have h1 : es[n]? = none := List.getElem?_eq_none (by omega)
    have h2 : (iterIdx (stepAt cond fun _ e => g e) es.length 0 es)[n]? = none := by
      apply List.getElem?_eq_none
      have := statePass_length cond (fun _ e => g e) es
      unfold statePass at this
      rw [this]
      omega
    rw [h2, List.getElem?_map, h1]
    rfl

theorem updateUnitEngagedState_knockback (cfg : BattleLogicConfig) (es : List UnitEntity)
    (unit : UnitEntity) (h : unit.state = AttackableState.ENGAGED) :
    ((updateUnitEngagedState cfg es unit).state = AttackableState.KNOCK_BACK ↔
      ∃ rate ∈ cfg.knockBackHealthThreasholds,
        unit.currentHealth < unit.maxHealth * rate ∧
        unit.currentHealth + unit.currentFrameDamage ≥ unit.maxHealth * rate) ∧
    ((updateUnitEngagedState cfg es unit).state = AttackableState.KNOCK_BACK →
      (updateUnitEngagedState cfg es unit).engagedEntity = none) := by
  have hfields : (engagedIdleCheck es unit).currentHealth = unit.currentHealth ∧
      (engagedIdleCheck es unit).currentFrameDamage = unit.currentFrameDamage ∧
      (engagedIdleCheck es unit).maxHealth = unit.maxHealth ∧
      (engagedIdleCheck es unit).state ≠ AttackableState.KNOCK_BACK := by
    rcases engagedIdleCheck_cases es unit with he | he <;> rw [he] <;>
      refine ⟨rfl, rfl, rfl, ?_⟩
    · rw [h]; intro hc; cases hc
    · intro hc; cases hc
  constructor
  · unfold updateUnitEngagedState
    dsimp only
    rw [knockBackLadder_state_iff _ _ _ hfields.2.2.2]
    rw [hfields.1, hfields.2.1, hfields.2.2.1]
  · intro hkb
    unfold updateUnitEngagedState at hkb ⊢
    dsimp only at hkb ⊢
    rcases knockBackLadder_cases
      ((engagedIdleCheck es unit).currentHealth + (engagedIdleCheck es unit).currentFrameDamage)
      cfg.knockBackHealthThreasholds (engagedIdleCheck es unit) with hl | hl
    · rw [hl] at hkb
      exact absurd hkb hfields.2.2.2
    · rw [hl]

theorem updateDamage_pskel (deleg : Option BattleLogicDelegate) (es : List UnitEntity)
    (unit : UnitEntity) (master : UnitMaster) (j : Nat) :
    ((updateDamage deleg es unit master)[j]?).map pskel = (es[j]?).map pskel := by
  rcases updateDamage_getElem deleg es unit master j with h | ⟨e, he, h2⟩
  · rw [h]
  · rw [h2, he]
    rfl

theorem paramStepAt_pskel (deleg : Option BattleLogicDelegate)
    (umc : List (Nat × UnitMaster)) (es : List UnitEntity) (i j : Nat) :
    ((paramStepAt deleg umc es i)[j]?).map pskel = (es[j]?).map pskel := by
  unfold paramStepAt
  split
  · rfl
  · split
    · rfl
    · dsimp only
      split
      · exact updateDamage_pskel deleg es _ _ j
      · rename_i x1 unit hequ x2 master heqm x3 unit1 h1
        by_cases hij : i = j
        · subst hij
          have hilen : i < (updateDamage deleg es unit master).length := by
            rcases List.getElem?_eq_some.mp h1 with ⟨hh, _⟩
            exact hh
          rw [List.getElem?_set_self hilen]
          have h2 : (some (updateDistance deleg unit1 master)).map pskel =
              (some unit1).map pskel := by
            simp [updateDistance_pskel]
          rw [h2, ← h1]
          exact updateDamage_pskel deleg es unit master i
        · rw [List.getElem?_set_ne hij]
          exact updateDamage_pskel deleg es _ _ j

theorem updateEntityParameter_pskel (deleg : Option BattleLogicDelegate)
    (umc : List (Nat × UnitMaster)) (es : List UnitEntity) (j : Nat) :
    ((updateEntityParameter deleg umc es)[j]?).map pskel = (es[j]?).map pskel := by
  have hmain := iterIdx_inv (paramStepAt deleg umc)
    (fun _ es2 => ∀ k, (es2[k]?).map pskel = (es[k]?).map pskel)
    (by
      intro i es2 hq k
      rw [paramStepAt_pskel deleg umc es2 i k]
      exact hq k)
    es.length 0 es (fun k => rfl)
  exact hmain j

/-! ### Plumbing lemmas about the frame phases -/

theorem updateAvailableCost_unitEntities (s : BattleLogic) (c : ℚ) :
    (s.updateAvailableCost c).unitEntities = s.unitEntities := by
  cases hd : s.delegator <;> simp [BattleLogic.updateAvailableCost, hd]

theorem updateAvailableCost_nextEntityId (s : BattleLogic) (c : ℚ) :
    (s.updateAvailableCost c).nextEntityId = s.nextEntityId := by
  cases hd : s.delegator <;> simp [BattleLogic.updateAvailableCost, hd]

theorem updateAvailableCost_config (s : BattleLogic) (c : ℚ) :
    (s.updateAvailableCost c).config = s.config := by
  cases hd : s.delegator <;> simp [BattleLogic.updateAvailableCost, hd]

theorem updateAvailableCost_delegator (s : BattleLogic) (c : ℚ) :
    (s.updateAvailableCost c).delegator = s.delegator := by
  cases hd : s.delegator <;> simp [BattleLogic.updateAvailableCost, hd]

theorem updateAvailableCost_unitMasterCache (s : BattleLogic) (c : ℚ) :
    (s.updateAvailableCost c).unitMasterCache = s.unitMasterCache := by
  cases hd : s.delegator <;> simp [BattleLogic.updateAvailableCost, hd]

theorem updateAvailableCost_spawnQueue (s : BattleLogic) (c : ℚ) :
    (s.updateAvailableCost c).spawnRequestedUnitUnitIds = s.spawnRequestedUnitUnitIds := by
  cases hd : s.delegator <;> simp [BattleLogic.updateAvailableCost, hd]

theorem updateAvailableCost_availableCost (s : BattleLogic) (c : ℚ) :
    (s.updateAvailableCost c).availableCost =
      if c > s.config.maxAvailableCost then s.config.maxAvailableCost else c := by
  cases hd : s.delegator <;> simp [BattleLogic.updateAvailableCost, hd]

theorem updateAvailableCost_costLog_mem (s : BattleLogic) (c : ℚ)
    (p : ℚ × ℚ × List Nat) (hp : p ∈ (s.updateAvailableCost c).costLog) :
    p ∈ s.costLog ∨
    (p.1 = (s.updateAvailableCost c).availableCost ∧ p.2.1 = s.config.maxAvailableCost) := by
  cases hd : s.delegator
  · left
    simpa [BattleLogic.updateAvailableCost, hd] using hp
  · simp only [BattleLogic.updateAvailableCost, hd] at hp
    rw [List.mem_append] at hp
    rcases hp with hp | hp
    · left; exact hp
    · right
      simp only [List.mem_singleton] at hp
      subst hp
      refine ⟨?_, rfl⟩
      rw [updateAvailableCost_availableCost]

theorem updateAISpawn_unitEntities (s : BattleLogic) :
    (s.updateAISpawn).unitEntities = s.unitEntities := by
  unfold BattleLogic.updateAISpawn
  split <;> rfl

theorem updateAISpawn_nextEntityId (s : BattleLogic) :
    (s.updateAISpawn).nextEntityId = s.nextEntityId := by
  unfold BattleLogic.updateAISpawn
  split <;> rfl

theorem updateAISpawn_availableCost (s : BattleLogic) :
    (s.updateAISpawn).availableCost = s.availableCost := by
  unfold BattleLogic.updateAISpawn
  split <;> rfl

theorem updateAISpawn_costLog (s : BattleLogic) :
    (s.updateAISpawn).costLog = s.costLog := by
  unfold BattleLogic.updateAISpawn
  split <;> rfl

theorem updateAISpawn_config (s : BattleLogic) :
    (s.updateAISpawn).config = s.config := by
  unfold BattleLogic.updateAISpawn
  split <;> rfl

theorem updateAISpawn_delegator (s : BattleLogic) :
    (s.updateAISpawn).delegator = s.delegator := by
  unfold BattleLogic.updateAISpawn
  split <;> rfl

theorem updateAISpawn_unitMasterCache (s : BattleLogic) :
    (s.updateAISpawn).unitMasterCache = s.unitMasterCache := by
  unfold BattleLogic.updateAISpawn
  split <;> rfl

theorem updateAISpawn_queue (s : BattleLogic) :
    (s.updateAISpawn).spawnRequestedUnitUnitIds =
      s.spawnRequestedUnitUnitIds ++
        (match mapGet s.aiWaveCache s.passedFrameCount with
         | none => []
         | some waves => waves.map (fun uid => (uid, false))) := by
  unfold BattleLogic.updateAISpawn
  split
  · simp
  · rfl

/-! ### The spawn drain -/

theorem spawnStep_cases (umc : List (Nat × UnitMaster)) (acc : SpawnAcc) (req : Nat × Bool) :
    spawnStep umc acc req = acc ∨
    ∃ m, mapGet umc req.1 = some m ∧
      spawnStep umc acc req =
        { tmpCost := if req.2 then acc.tmpCost - m.cost else acc.tmpCost
          entities := acc.entities ++
            [{ UnitEntity.fresh req.1 req.2 with
                id := acc.nextEntityId
                maxHealth := m.maxHealth
                currentHealth := m.maxHealth
                state := AttackableState.IDLE }]
          nextEntityId := acc.nextEntityId + 1 } := by
  unfold spawnStep
  split
  · left; rfl
  · rename_i m hm
    split
    · left; rfl
    · right; exact ⟨m, hm, rfl⟩

theorem spawnFold_spec (umc : List (Nat × UnitMaster)) :
    ∀ (reqs : List (Nat × Bool)) (acc : SpawnAcc),
      ∃ news : List UnitEntity,
        (reqs.foldl (spawnStep umc) acc).entities = acc.entities ++ news ∧
        acc.nextEntityId ≤ (reqs.foldl (spawnStep umc) acc).nextEntityId ∧
        (∀ e ∈ news, e.engagedEntity = none ∧ e.state = AttackableState.IDLE ∧
          acc.nextEntityId ≤ e.id ∧ e.id < (reqs.foldl (spawnStep umc) acc).nextEntityId) ∧
        news.Pairwise (fun a b => a.id ≠ b.id) := by
  intro reqs
  induction reqs with
  | nil =>
    intro acc
    exact ⟨[], by simp, Nat.le_refl _, by simp, List.Pairwise.nil⟩
  | cons r rest ih =>
    intro acc
    rw [List.foldl_cons]
    rcases spawnStep_cases umc acc r with h | ⟨m, hm, h⟩
    · rw [h]
      exact ih acc
    · rw [h]
      rcases ih { tmpCost := if r.2 then acc.tmpCost - m.cost else acc.tmpCost
                  entities := acc.entities ++
                    [{ UnitEntity.fresh r.1 r.2 with
                        id := acc.nextEntityId
                        maxHealth := m.maxHealth
                        currentHealth := m.maxHealth
                        state := AttackableState.IDLE }]
                  nextEntityId := acc.nextEntityId + 1 } with ⟨news2, he, hn, hmem, hpw⟩
      refine ⟨{ UnitEntity.fresh r.1 r.2 with
          id := acc.nextEntityId
          maxHealth := m.maxHealth
          currentHealth := m.maxHealth
          state := AttackableState.IDLE } :: news2, ?_, ?_, ?_, ?_⟩
      · rw [he]
        simp
      · exact Nat.le_trans (Nat.le_succ _) hn
      · intro e hmem2
        rcases List.mem_cons.mp hmem2 with heq | hmem3
        · subst heq
          exact ⟨rfl, rfl, Nat.le_refl _, Nat.lt_of_lt_of_le (Nat.lt_succ_self _) hn⟩
        · rcases hmem e hmem3 with ⟨h1, h2, h3, h4⟩
          exact ⟨h1, h2, Nat.le_trans (Nat.le_succ _) h3, h4⟩
      · refine List.Pairwise.cons ?_ hpw
        intro e hmem3
        rcases hmem e hmem3 with ⟨_, _, h3, _⟩
        have h3b : acc.nextEntityId + 1 ≤ e.id := h3
        show acc.nextEntityId ≠ e.id
        omega

theorem updateSpawnRequest_spec (s : BattleLogic) :
    ∃ news : List UnitEntity,
      (s.updateSpawnRequest).unitEntities = s.unitEntities ++ news ∧
      s.nextEntityId ≤ (s.updateSpawnRequest).nextEntityId ∧
      (∀ e ∈ news, e.engagedEntity = none ∧ e.state = AttackableState.IDLE ∧
        s.nextEntityId ≤ e.id ∧ e.id < (s.updateSpawnRequest).nextEntityId) ∧
      news.Pairwise (fun a b => a.id ≠ b.id) := by
  unfold BattleLogic.updateSpawnRequest
  split
  · exact ⟨[], by simp, Nat.le_refl _, by simp, List.Pairwise.nil⟩
  · rcases spawnFold_spec s.unitMasterCache s.spawnRequestedUnitUnitIds
      { tmpCost := s.availableCost
        entities := s.unitEntities
        nextEntityId := s.nextEntityId } with ⟨news, he, hn, hmem, hpw⟩
    refine ⟨news, ?_, ?_, ?_, hpw⟩
    · rw [updateAvailableCost_unitEntities]
      exact he
    · rw [updateAvailableCost_nextEntityId]
      exact hn
    · intro e hmem2
      rcases hmem e hmem2 with ⟨h1, h2, h3, h4⟩
      rw [updateAvailableCost_nextEntityId]
      exact ⟨h1, h2, h3, h4⟩

theorem updateSpawnRequest_queue (s : BattleLogic) :
    (s.updateSpawnRequest).spawnRequestedUnitUnitIds = [] := by
  unfold BattleLogic.updateSpawnRequest
  split
  · rename_i hq
    exact hq
  · rfl

theorem updateSpawnRequest_config (s : BattleLogic) :
    (s.updateSpawnRequest).config = s.config := by
  unfold BattleLogic.updateSpawnRequest
  split
  · rfl
  · rw [updateAvailableCost_config]

theorem updateSpawnRequest_delegator (s : BattleLogic) :
    (s.updateSpawnRequest).delegator = s.delegator := by
  unfold BattleLogic.updateSpawnRequest
  split
  · rfl
  · rw [updateAvailableCost_delegator]

theorem updateSpawnRequest_unitMasterCache (s : BattleLogic) :
    (s.updateSpawnRequest).unitMasterCache = s.unitMasterCache := by
  unfold BattleLogic.updateSpawnRequest
  split
  · rfl
  · rw [updateAvailableCost_unitMasterCache]

/-! ### Extraction helpers -/

theorem sskel_fields {a b : UnitEntity} (h : sskel a = sskel b) :
    a.id = b.id ∧ a.unitId = b.unitId ∧ a.isPlayer = b.isPlayer ∧
    a.currentHealth = b.currentHealth ∧ a.maxHealth = b.maxHealth ∧
    a.currentFrameDamage = b.currentFrameDamage ∧ a.distance = b.distance ∧
    a.currentKnockBackFrameCount = b.currentKnockBackFrameCount := by
  simpa [sskel, Prod.ext_iff] using h

theorem pskel_fields {a b : UnitEntity} (h : pskel a = pskel b) :
    a.id = b.id ∧ a.unitId = b.unitId ∧ a.isPlayer = b.isPlayer ∧
    a.state = b.state ∧ a.engagedEntity = b.engagedEntity ∧ a.maxHealth = b.maxHealth := by
  simpa [pskel, Prod.ext_iff] using h

theorem map_eq_some_extract {β : Type} {f : UnitEntity → β} {o1 o2 : Option UnitEntity}
    (h : o1.map f = o2.map f) {e : UnitEntity} (he : o1 = some e) :
    ∃ e2, o2 = some e2 ∧ f e = f e2 := by
  subst he
  cases o2 with
  | none => simp at h
  | some e2 =>
    refine ⟨e2, rfl, ?_⟩
    simpa using h

theorem getElem_mem_of_eq_some {es : List UnitEntity} {j : Nat} {e : UnitEntity}
    (h : es[j]? = some e) : e ∈ es := by
  rcases List.getElem?_eq_some.mp h with ⟨hlt, hget⟩
  exact hget ▸ List.getElem_mem hlt

theorem idsUnique_index {es : List UnitEntity} (h : IdsUnique es) :
    ∀ (k1 k2 : Nat) (t1 t2 : UnitEntity),
      es[k1]? = some t1 → es[k2]? = some t2 → t1.id = t2.id → k1 = k2 := by
  intro k1 k2 t1 t2 h1 h2 hid
  rcases List.getElem?_eq_some.mp h1 with ⟨hl1, hg1⟩
  rcases List.getElem?_eq_some.mp h2 with ⟨hl2, hg2⟩
  by_contra hne
  rcases Nat.lt_or_ge k1 k2 with hlt | hge
  · have := (List.pairwise_iff_getElem.mp h) k1 k2 hl1 hl2 hlt
    rw [hg1, hg2] at this
    exact this hid
  · have hlt2 : k2 < k1 := by omega
    have := (List.pairwise_iff_getElem.mp h) k2 k1 hl2 hl1 hlt2
    rw [hg1, hg2] at this
    exact this hid.symm

/-! ### The ENGAGED resolution pass -/

theorem engagedPass_spec (cfg : BattleLogicConfig) (es1 : List UnitEntity)
    (hdead : ∀ e ∈ es1, e.state = AttackableState.DEAD → e.currentHealth < 1)
    (heng : ∀ (j : Nat) (e : UnitEntity), es1[j]? = some e →
      ∀ tid : Nat, e.engagedEntity = some tid →
      e.state = AttackableState.ENGAGED ∧
      ∃ (k : Nat) (t : UnitEntity), es1[k]? = some t ∧ t.id = tid ∧ t.isPlayer = !e.isPlayer)
    (huniq : ∀ (k1 k2 : Nat) (t1 t2 : UnitEntity), es1[k1]? = some t1 → es1[k2]? = some t2 →
      t1.id = t2.id → k1 = k2) :
    (statePass AttackableState.ENGAGED (fun es e => updateUnitEngagedState cfg es e) es1).length
        = es1.length ∧
    (∀ j : Nat, ((statePass AttackableState.ENGAGED
        (fun es e => updateUnitEngagedState cfg es e) es1)[j]?).map sskel =
      (es1[j]?).map sskel) ∧
    (∀ (j : Nat) (e2 e1 : UnitEntity), (statePass AttackableState.ENGAGED
        (fun es e => updateUnitEngagedState cfg es e) es1)[j]? = some e2 →
      es1[j]? = some e1 →
      (e2.state = AttackableState.DEAD ↔ e1.state = AttackableState.DEAD)) ∧
    (∀ (j : Nat) (e2 : UnitEntity), (statePass AttackableState.ENGAGED
        (fun es e => updateUnitEngagedState cfg es e) es1)[j]? = some e2 →
      ∀ tid : Nat, e2.engagedEntity = some tid →
      e2.state = AttackableState.ENGAGED ∧
      ∃ (k : Nat) (t : UnitEntity), es1[k]? = some t ∧ t.id = tid ∧ t.isPlayer = !e2.isPlayer ∧
        t.state ≠ AttackableState.DEAD) := by
  have hmain := iterIdx_inv (stepAt AttackableState.ENGAGED (fun es e => updateUnitEngagedState cfg es e))
    (fun i es =>
      es.length = es1.length ∧
      (∀ k : Nat, (es[k]?).map sskel = (es1[k]?).map sskel) ∧
      (∀ (k : Nat) (e e1 : UnitEntity), es[k]? = some e → es1[k]? = some e1 →
        (e.state = AttackableState.DEAD ↔ e1.state = AttackableState.DEAD)) ∧
      (∀ k : Nat, i ≤ k → es[k]? = es1[k]?) ∧
      (∀ (k : Nat) (e : UnitEntity), k < i → es[k]? = some e →
        ∀ tid : Nat, e.engagedEntity = some tid →
        e.state = AttackableState.ENGAGED ∧
        ∃ (k2 : Nat) (t : UnitEntity), es1[k2]? = some t ∧ t.id = tid ∧ t.isPlayer = !e.isPlayer ∧
          t.state ≠ AttackableState.DEAD))
    (by
      intro i es hq
      rcases hq with ⟨hlen, hsk, hdd, hsuf, hstg⟩
      rcases hcase : es[i]? with _ | e
      · have hstep : stepAt AttackableState.ENGAGED
            (fun es e => updateUnitEngagedState cfg es e) es i = es := by
          unfold stepAt
          rw [hcase]
        rw [hstep]
        refine ⟨hlen, hsk, hdd, fun k hk => hsuf k (by omega), ?_⟩
        intro k e hk hke
        by_cases hki : k = i
        · subst hki
          rw [hcase] at hke
          cases hke
        · exact hstg k e (by omega) hke
      · by_cases hst : e.state = AttackableState.ENGAGED
        · have hstep : stepAt AttackableState.ENGAGED
              (fun es e => updateUnitEngagedState cfg es e) es i =
              es.set i (updateUnitEngagedState cfg es e) := by
            unfold stepAt
            rw [hcase]
            dsimp only
            rw [if_pos hst]
          rw [hstep]
          have hilen : i < es.length := by
            rcases List.getElem?_eq_some.mp hcase with ⟨hh, _⟩
            exact hh
          have he1 : es1[i]? = some e := by
            rw [← hsuf i (Nat.le_refl i)]
            exact hcase
          have hgi : (es.set i (updateUnitEngagedState cfg es e))[i]? =
              some (updateUnitEngagedState cfg es e) :=
            List.getElem?_set_self hilen
          refine ⟨by rw [List.length_set]; exact hlen, ?_, ?_, ?_, ?_⟩
          · intro k
            by_cases hki : k = i
            · subst hki
              rw [hgi, ← hsk k, hcase]
              simp [updateUnitEngagedState_sskel]
            · rw [List.getElem?_set_ne (fun hh => hki hh.symm)]
              exact hsk k
          · intro k e2 e1 hk2 hk1
            by_cases hki : k = i
            · subst hki
              rw [hgi] at hk2
              cases hk2
              rw [he1] at hk1
              cases hk1
              constructor
              · intro hd2
                rcases updateUnitEngagedState_state_cases cfg es e with hh | hh | hh <;>
                  rw [hd2] at hh
                · exact absurd hh.symm (by rw [hst]; intro hc; cases hc)
                · cases hh
                · cases hh
              · intro hd1
                rw [hst] at hd1
                cases hd1
            · rw [List.getElem?_set_ne (fun hh => hki hh.symm)] at hk2
              exact hdd k e2 e1 hk2 hk1
          · intro k hk
            rw [List.getElem?_set_ne (by omega : i ≠ k)]
            exact hsuf k (by omega)
          · intro k e2 hk hke htid hengk
            by_cases hki : k = i
            · subst hki
              rw [hgi] at hke
              cases hke
              rcases updateUnitEngagedState_keep cfg es e htid hengk with
                ⟨hkeep, hsomee, target, hfind, hth, htkb⟩
              have htmem : target ∈ es := List.mem_of_find?_eq_some hfind
              rcases List.mem_iff_getElem?.mp htmem with ⟨kt, hkt⟩
              have htid2 : target.id = htid := by
                have := List.find?_some hfind
                simpa using this
              rcases map_eq_some_extract (hsk kt) hkt with ⟨t1, ht1, hskeq⟩
              rcases sskel_fields hskeq with ⟨hid, _, hside, hhp, _, _, _, _⟩
              rcases heng k e he1 htid hsomee with ⟨hstate1, k2, t2, ht2, htid3, hside2⟩
              have hkk : kt = k2 := huniq kt k2 t1 t2 ht1 ht2 (by rw [← hid, htid2, ← htid3])
              subst hkk
              rw [ht1] at ht2
              cases ht2
              have htnd : t1.state ≠ AttackableState.DEAD := by
                intro hdd2
                have := hdead t1 (getElem_mem_of_eq_some ht1) hdd2
                rw [← hhp] at this
                exact absurd hth (not_le.mpr this)
              rw [hkeep]
              exact ⟨hst, kt, t1, ht1, by rw [← hid, htid2], hside2, htnd⟩
            · rw [List.getElem?_set_ne (fun hh => hki hh.symm)] at hke
              exact hstg k e2 (by omega) hke htid hengk
        · have hstep : stepAt AttackableState.ENGAGED
              (fun es e => updateUnitEngagedState cfg es e) es i = es := by
            unfold stepAt
            rw [hcase]
            dsimp only
            rw [if_neg hst]
          rw [hstep]
          refine ⟨hlen, hsk, hdd, fun k hk => hsuf k (by omega), ?_⟩
          intro k e2 hk hke htid hengk
          by_cases hki : k = i
          · subst hki
            rw [hcase] at hke
            cases hke
            have he1 : es1[k]? = some e := by
              rw [← hsuf k (Nat.le_refl k)]
              exact hcase
            have := (heng k e he1 htid hengk).1
            exact absurd this hst
          · exact hstg k e2 (by omega) hke htid hengk)
    es1.length 0 es1
    ⟨rfl, fun k => rfl, fun k e e1 h1 h2 => by rw [h1] at h2; cases h2; exact Iff.rfl,
      fun k _ => rfl, fun k e hk => by omega⟩
  rcases hmain with ⟨hlen, hsk, hdd, _, hstg⟩
  refine ⟨hlen, hsk, hdd, ?_⟩
  intro j e2 hj tid hetid
  have hjlen : j < es1.length := by
    have hh := List.getElem?_eq_some.mp hj
    rcases hh with ⟨hh2, _⟩
    rw [statePass_length] at hh2
    exact hh2
  exact hstg j e2 (by omega) hj tid hetid

/-! ### The IDLE resolution pass -/

theorem bool_ne_to_not {a b : Bool} (h : a ≠ b) : a = !b := by
  cases a <;> cases b <;> simp_all

theorem idlePass_spec (deleg : Option BattleLogicDelegate) (es2 : List UnitEntity)
    (heng2 : ∀ (j : Nat) (e : UnitEntity), es2[j]? = some e →
      ∀ tid : Nat, e.engagedEntity = some tid →
      e.state = AttackableState.ENGAGED ∧
      ∃ (k : Nat) (t : UnitEntity), es2[k]? = some t ∧ t.id = tid ∧
        t.isPlayer = !e.isPlayer ∧ t.state ≠ AttackableState.DEAD) :
    (statePass AttackableState.IDLE (fun es e => updateUnitIdleState deleg es e) es2).length
        = es2.length ∧
    (∀ j : Nat, ((statePass AttackableState.IDLE
        (fun es e => updateUnitIdleState deleg es e) es2)[j]?).map sskel =
      (es2[j]?).map sskel) ∧
    (∀ (j : Nat) (e3 e0 : UnitEntity), (statePass AttackableState.IDLE
        (fun es e => updateUnitIdleState deleg es e) es2)[j]? = some e3 →
      es2[j]? = some e0 →
      (e3.state = AttackableState.DEAD ↔ e0.state = AttackableState.DEAD)) ∧
    (∀ (j : Nat) (e3 : UnitEntity), (statePass AttackableState.IDLE
        (fun es e => updateUnitIdleState deleg es e) es2)[j]? = some e3 →
      ∀ tid : Nat, e3.engagedEntity = some tid →
      e3.state = AttackableState.ENGAGED ∧
      ∃ (k : Nat) (t : UnitEntity), (statePass AttackableState.IDLE
          (fun es e => updateUnitIdleState deleg es e) es2)[k]? = some t ∧
        t.id = tid ∧ t.isPlayer = !e3.isPlayer ∧ t.state ≠ AttackableState.DEAD) := by
  have hmain := iterIdx_inv (stepAt AttackableState.IDLE (fun es e => updateUnitIdleState deleg es e))
    (fun i es =>
      es.length = es2.length ∧
      (∀ k : Nat, (es[k]?).map sskel = (es2[k]?).map sskel) ∧
      (∀ (k : Nat) (e e1 : UnitEntity), es[k]? = some e → es2[k]? = some e1 →
        (e.state = AttackableState.DEAD ↔ e1.state = AttackableState.DEAD)) ∧
      (∀ k : Nat, i ≤ k → es[k]? = es2[k]?) ∧
      (∀ (k : Nat) (e : UnitEntity), es[k]? = some e →
        ∀ tid : Nat, e.engagedEntity = some tid →
        e.state = AttackableState.ENGAGED ∧
        ∃ (k2 : Nat) (t : UnitEntity), es[k2]? = some t ∧ t.id = tid ∧
          t.isPlayer = !e.isPlayer ∧ t.state ≠ AttackableState.DEAD))
    (by
      intro i es hq
      rcases hq with ⟨hlen, hsk, hdd, hsuf, henv⟩
      rcases hcase : es[i]? with _ | e
      · have hstep : stepAt AttackableState.IDLE
            (fun es e => updateUnitIdleState deleg es e) es i = es := by
          unfold stepAt
          rw [hcase]
        rw [hstep]
        exact ⟨hlen, hsk, hdd, fun k hk => hsuf k (by omega), henv⟩
      · by_cases hst : e.state = AttackableState.IDLE
        · have hstep : stepAt AttackableState.IDLE
              (fun es e => updateUnitIdleState deleg es e) es i =
              es.set i (updateUnitIdleState deleg es e) := by
            unfold stepAt
            rw [hcase]
            dsimp only
            rw [if_pos hst]
          rw [hstep]
          have hilen : i < es.length := by
            rcases List.getElem?_eq_some.mp hcase with ⟨hh, _⟩
            exact hh
          have hgi : (es.set i (updateUnitIdleState deleg es e))[i]? =
              some (updateUnitIdleState deleg es e) :=
            List.getElem?_set_self hilen
          have he2i : es2[i]? = some e := by
            rw [← hsuf i (Nat.le_refl i)]
            exact hcase
          -- facts about the resolved entity
          rcases updateUnitIdleState_cases deleg es e with hres | ⟨t, htmem, htside, htstate, hres⟩
          · -- nothing engaged: the entity is unchanged, only rewritten in place
            have hpt : ∀ k : Nat, (es.set i (updateUnitIdleState deleg es e))[k]? = es[k]? := by
              intro k
              by_cases hki : k = i
              · subst hki
                rw [hgi, hres, hcase]
              · rw [List.getElem?_set_ne (fun hh => hki hh.symm)]
            refine ⟨by rw [List.length_set]; exact hlen, ?_, ?_, ?_, ?_⟩
            · intro k; rw [hpt k]; exact hsk k
            · intro k e3 e1 h1 h2
              rw [hpt k] at h1
              exact hdd k e3 e1 h1 h2
            · intro k hk
              rw [hpt k]
              exact hsuf k (by omega)
            · intro k e3 h1 tid h2
              rw [hpt k] at h1
              rcases henv k e3 h1 tid h2 with ⟨hs, k2, t2, h3, h4, h5, h6⟩
              exact ⟨hs, k2, t2, by rw [hpt k2]; exact h3, h4, h5, h6⟩
          · -- engaged the first eligible approved target t
            rcases List.mem_iff_getElem?.mp htmem with ⟨kt, hkt⟩
            have hktne : kt ≠ i := by
              intro hh
              subst hh
              rw [hkt] at hcase
              cases hcase
              exact htside rfl
            refine ⟨by rw [List.length_set]; exact hlen, ?_, ?_, ?_, ?_⟩
            · intro k
              by_cases hki : k = i
              · subst hki
                rw [hgi, hres, ← hsk k, hcase]
                rfl
              · rw [List.getElem?_set_ne (fun hh => hki hh.symm)]
                exact hsk k
            · intro k e3 e1 h1 h2
              by_cases hki : k = i
              · subst hki
                rw [hgi] at h1
                cases h1
                rw [he2i] at h2
                cases h2
                rw [hres]
                constructor
                · intro hh
                  cases hh
                · intro hh
                  rw [hst] at hh
                  cases hh
              · rw [List.getElem?_set_ne (fun hh => hki hh.symm)] at h1
                exact hdd k e3 e1 h1 h2
            · intro k hk
              rw [List.getElem?_set_ne (by omega : i ≠ k)]
              exact hsuf k (by omega)
            · intro k e3 h1 tid h2
              by_cases hki : k = i
              · subst hki
                rw [hgi] at h1
                cases h1
                rw [hres] at h2 ⊢
                simp only [Option.some.injEq] at h2
                subst h2
                refine ⟨rfl, kt, t, ?_, rfl, bool_ne_to_not htside, ?_⟩
                · rw [List.getElem?_set_ne (fun hh => hktne hh.symm)]
                  exact hkt
                · rcases htstate with hh | hh <;> rw [hh] <;> intro hc <;> cases hc
              · rw [List.getElem?_set_ne (fun hh => hki hh.symm)] at h1
                rcases henv k e3 h1 tid h2 with ⟨hs, k2, t2, h3, h4, h5, h6⟩
                by_cases hk2i : k2 = i
                · subst hk2i
                  rw [hcase] at h3
                  cases h3
                  refine ⟨hs, k2, updateUnitIdleState deleg es e, hgi, ?_, ?_, ?_⟩
                  · rw [hres]; exact h4
                  · rw [hres]; exact h5
                  · rw [hres]
                    show AttackableState.ENGAGED ≠ AttackableState.DEAD
                    intro hc
                    cases hc
                · exact ⟨hs, k2, t2, by
                    rw [List.getElem?_set_ne (fun hh => hk2i hh.symm)]; exact h3, h4, h5, h6⟩
        · have hstep : stepAt AttackableState.IDLE
              (fun es e => updateUnitIdleState deleg es e) es i = es := by
            unfold stepAt
            rw [hcase]
            dsimp only
            rw [if_neg hst]
          rw [hstep]
          exact ⟨hlen, hsk, hdd, fun k hk => hsuf k (by omega), henv⟩)
    es2.length 0 es2
    ⟨rfl, fun k => rfl, fun k e e1 h1 h2 => by rw [h1] at h2; cases h2; exact Iff.rfl,
      fun k _ => rfl, fun k e h1 tid h2 => heng2 k e h1 tid h2⟩
  exact ⟨hmain.1, hmain.2.1, hmain.2.2.1, fun j e3 h1 tid h2 => hmain.2.2.2.2 j e3 h1 tid h2⟩

/-! ### The whole state-resolution phase -/

theorem statePhase_spec (umc : List (Nat × UnitMaster)) (cfg : BattleLogicConfig)
    (deleg : Option BattleLogicDelegate) (es0 : List UnitEntity)
    (hnd : NoDead es0) (hei : EngagementInv es0) (hui : IdsUnique es0) :
    (statePass AttackableState.IDLE (fun es e => updateUnitIdleState deleg es e)
      (statePass AttackableState.ENGAGED (fun es e => updateUnitEngagedState cfg es e)
        (statePass AttackableState.KNOCK_BACK (fun _ e => updateUnitKnockBackState umc e)
          es0))).length = es0.length ∧
    (∀ j : Nat, ((statePass AttackableState.IDLE (fun es e => updateUnitIdleState deleg es e)
      (statePass AttackableState.ENGAGED (fun es e => updateUnitEngagedState cfg es e)
        (statePass AttackableState.KNOCK_BACK (fun _ e => updateUnitKnockBackState umc e)
          es0)))[j]?).map sskel = (es0[j]?).map sskel) ∧
    (∀ (j : Nat) (e3 : UnitEntity),
      (statePass AttackableState.IDLE (fun es e => updateUnitIdleState deleg es e)
        (statePass AttackableState.ENGAGED (fun es e => updateUnitEngagedState cfg es e)
          (statePass AttackableState.KNOCK_BACK (fun _ e => updateUnitKnockBackState umc e)
            es0)))[j]? = some e3 →
      ∀ tid : Nat, e3.engagedEntity = some tid →
      e3.state = AttackableState.ENGAGED ∧
      ∃ (k : Nat) (t : UnitEntity),
        (statePass AttackableState.IDLE (fun es e => updateUnitIdleState deleg es e)
          (statePass AttackableState.ENGAGED (fun es e => updateUnitEngagedState cfg es e)
            (statePass AttackableState.KNOCK_BACK (fun _ e => updateUnitKnockBackState umc e)
              es0)))[k]? = some t ∧
        t.id = tid ∧ t.isPlayer = !e3.isPlayer ∧ t.state ≠ AttackableState.DEAD) := by
  have hmap : statePass AttackableState.KNOCK_BACK
      (fun _ e => updateUnitKnockBackState umc e) es0 =
      es0.map (fun e => if e.state = AttackableState.KNOCK_BACK
        then updateUnitKnockBackState umc e else e) :=
    statePass_const_map AttackableState.KNOCK_BACK (updateUnitKnockBackState umc) es0
  have hpt1 : ∀ j : Nat, (statePass AttackableState.KNOCK_BACK
      (fun _ e => updateUnitKnockBackState umc e) es0)[j]? =
      (es0[j]?).map (fun e => if e.state = AttackableState.KNOCK_BACK
        then updateUnitKnockBackState umc e else e) := by
    intro j
    rw [hmap, List.getElem?_map]
  have hsk1 : ∀ j : Nat, ((statePass AttackableState.KNOCK_BACK
      (fun _ e => updateUnitKnockBackState umc e) es0)[j]?).map sskel =
      (es0[j]?).map sskel := by
    intro j
    rw [hpt1 j]
    rcases hcase : es0[j]? with _ | e
    · rfl
    · dsimp only [Option.map_some']
      by_cases hst : e.state = AttackableState.KNOCK_BACK
      · rw [if_pos hst, updateUnitKnockBackState_sskel]
      · rw [if_neg hst]
  have hdead1 : ∀ e ∈ (statePass AttackableState.KNOCK_BACK
      (fun _ e => updateUnitKnockBackState umc e) es0),
      e.state = AttackableState.DEAD → e.currentHealth < 1 := by
    intro e hmem hd
    rw [hmap] at hmem
    rcases List.mem_map.mp hmem with ⟨e0, he0, heq⟩
    by_cases hst : e0.state = AttackableState.KNOCK_BACK
    · rw [if_pos hst] at heq
      subst heq
      rcases updateUnitKnockBackState_state_cases umc e0 with hh | hh | hh
      · rw [hd, hst] at hh
        cases hh
      · rcases sskel_fields (updateUnitKnockBackState_sskel umc e0) with
          ⟨_, _, _, hhp, _, _, _, _⟩
        rw [hhp]
        exact hh.2
      · rw [hd] at hh
        cases hh
    · rw [if_neg hst] at heq
      subst heq
      exact absurd hd (hnd e0 he0)
  have heng1 : ∀ (j : Nat) (e : UnitEntity),
      (statePass AttackableState.KNOCK_BACK
        (fun _ e => updateUnitKnockBackState umc e) es0)[j]? = some e →
      ∀ tid : Nat, e.engagedEntity = some tid →
      e.state = AttackableState.ENGAGED ∧
      ∃ (k : Nat) (t : UnitEntity),
        (statePass AttackableState.KNOCK_BACK
          (fun _ e => updateUnitKnockBackState umc e) es0)[k]? = some t ∧
        t.id = tid ∧ t.isPlayer = !e.isPlayer := by
    intro j e hj tid htid
    rw [hpt1 j] at hj
    rcases hcase : es0[j]? with _ | e0
    · rw [hcase] at hj
      cases hj
    · rw [hcase] at hj
      dsimp only [Option.map_some'] at hj
      by_cases hst : e0.state = AttackableState.KNOCK_BACK
      · rw [if_pos hst] at hj
        cases hj
        rw [updateUnitKnockBackState_engagedEntity] at htid
        cases htid
      · rw [if_neg hst] at hj
        cases hj
        rcases hei e (getElem_mem_of_eq_some hcase) tid htid with ⟨hstate, t, htm, htidq, htside⟩
        rcases List.mem_iff_getElem?.mp htm with ⟨k0, hk0⟩
        refine ⟨hstate, k0, (fun e => if e.state = AttackableState.KNOCK_BACK
          then updateUnitKnockBackState umc e else e) t, ?_, ?_, ?_⟩
        · rw [hpt1 k0, hk0]
          rfl
        · by_cases hsx : t.state = AttackableState.KNOCK_BACK
          · dsimp only
            rw [if_pos hsx]
            rcases sskel_fields (updateUnitKnockBackState_sskel umc t) with ⟨hid0, _⟩
            rw [hid0]
            exact htidq
          · dsimp only
            rw [if_neg hsx]
            exact htidq
        · by_cases hsx : t.state = AttackableState.KNOCK_BACK
          · dsimp only
            rw [if_pos hsx]
            rcases sskel_fields (updateUnitKnockBackState_sskel umc t) with ⟨_, _, hpl, _⟩
            rw [hpl]
            exact htside
          · dsimp only
            rw [if_neg hsx]
            exact htside
  have huniq1 : ∀ (k1 k2 : Nat) (t1 t2 : UnitEntity),
      (statePass AttackableState.KNOCK_BACK
        (fun _ e => updateUnitKnockBackState umc e) es0)[k1]? = some t1 →
      (statePass AttackableState.KNOCK_BACK
        (fun _ e => updateUnitKnockBackState umc e) es0)[k2]? = some t2 →
      t1.id = t2.id → k1 = k2 := by
    intro k1 k2 t1 t2 h1 h2 hid
    rcases map_eq_some_extract (hsk1 k1) h1 with ⟨u1, hu1, hsk1a⟩
    rcases map_eq_some_extract (hsk1 k2) h2 with ⟨u2, hu2, hsk2a⟩
    rcases sskel_fields hsk1a with ⟨hid1, _⟩
    rcases sskel_fields hsk2a with ⟨hid2, _⟩
    exact idsUnique_index hui k1 k2 u1 u2 hu1 hu2 (by rw [← hid1, ← hid2, hid])
  have hP2 := engagedPass_spec cfg
    (statePass AttackableState.KNOCK_BACK (fun _ e => updateUnitKnockBackState umc e) es0)
    hdead1 heng1 huniq1
  rcases hP2 with ⟨hlen2, hsk2, hdd2, heng2⟩
  have heng2es : ∀ (j : Nat) (e : UnitEntity),
      (statePass AttackableState.ENGAGED (fun es e => updateUnitEngagedState cfg es e)
        (statePass AttackableState.KNOCK_BACK
          (fun _ e => updateUnitKnockBackState umc e) es0))[j]? = some e →
      ∀ tid : Nat, e.engagedEntity = some tid →
      e.state = AttackableState.ENGAGED ∧
      ∃ (k : Nat) (t : UnitEntity),
        (statePass AttackableState.ENGAGED (fun es e => updateUnitEngagedState cfg es e)
          (statePass AttackableState.KNOCK_BACK
            (fun _ e => updateUnitKnockBackState umc e) es0))[k]? = some t ∧
        t.id = tid ∧ t.isPlayer = !e.isPlayer ∧ t.state ≠ AttackableState.DEAD := by
    intro j e hj tid htid
    rcases heng2 j e hj tid htid with ⟨hstate, k, t1, ht1, htid1, htside1, htnd1⟩
    rcases map_eq_some_extract (hsk2 k).symm ht1 with ⟨t2, ht2, hskeq⟩
    rcases sskel_fields hskeq with ⟨hid, _, hpl, _⟩
    refine ⟨hstate, k, t2, ht2, by rw [← hid]; exact htid1, by rw [← hpl]; exact htside1, ?_⟩
    intro hdd
    exact htnd1 ((hdd2 k t2 t1 ht2 ht1).mp hdd)
  have hP3 := idlePass_spec deleg
    (statePass AttackableState.ENGAGED (fun es e => updateUnitEngagedState cfg es e)
      (statePass AttackableState.KNOCK_BACK
        (fun _ e => updateUnitKnockBackState umc e) es0))
    heng2es
  rcases hP3 with ⟨hlen3, hsk3, _, heng3⟩
  refine ⟨?_, ?_, heng3⟩
  · rw [hlen3, hlen2, statePass_length]
  · intro j
    rw [hsk3 j, hsk2 j, hsk1 j]

/-! ### Invariant preservation across one frame -/

theorem updatePostProcess_unitEntities (s : BattleLogic) :
    (s.updatePostProcess).unitEntities =
      (s.unitEntities.filter (fun e => e.state ≠ AttackableState.DEAD)).map
        (fun e => { e with currentFrameDamage := 0 }) := rfl

theorem updatePostProcess_nextEntityId (s : BattleLogic) :
    (s.updatePostProcess).nextEntityId = s.nextEntityId := rfl

theorem updateEntityState_unitEntities (s : BattleLogic) :
    (s.updateEntityState).unitEntities =
      statePass AttackableState.IDLE (fun es e => updateUnitIdleState s.delegator es e)
        (statePass AttackableState.ENGAGED (fun es e => updateUnitEngagedState s.config es e)
          (statePass AttackableState.KNOCK_BACK
            (fun _ e => updateUnitKnockBackState s.unitMasterCache e)
            s.unitEntities)) := rfl

theorem updateEntityState_nextEntityId (s : BattleLogic) :
    (s.updateEntityState).nextEntityId = s.nextEntityId := rfl

theorem GInv_of_fields {s1 s2 : BattleLogic} (h : GInv s1)
    (he : s2.unitEntities = s1.unitEntities) (hn : s2.nextEntityId = s1.nextEntityId) :
    GInv s2 := by
  unfold GInv IdsBound IdsUnique NoDead EngagementInv at h ⊢
  rw [he, hn]
  exact h

theorem idsUnique_of_pointwise {es es2 : List UnitEntity} (hlen : es2.length = es.length)
    (hid : ∀ (j : Nat) (e2 e : UnitEntity), es2[j]? = some e2 → es[j]? = some e →
      e2.id = e.id)
    (h : IdsUnique es) : IdsUnique es2 := by
  unfold IdsUnique at h ⊢
  rw [List.pairwise_iff_getElem] at h ⊢
  intro i j hi hj hij
  have hi2 : i < es.length := by omega
  have hj2 : j < es.length := by omega
  have h1 := hid i (es2[i]) (es[i]) (List.getElem?_eq_getElem hi) (List.getElem?_eq_getElem hi2)
  have h2 := hid j (es2[j]) (es[j]) (List.getElem?_eq_getElem hj) (List.getElem?_eq_getElem hj2)
  have h3 := h i j hi2 hj2 hij
  rw [h1, h2]
  exact h3

theorem GInv_transport_pskel {s : BattleLogic} (es2 : List UnitEntity) (h : GInv s)
    (hlen : es2.length = s.unitEntities.length)
    (hpt : ∀ j : Nat, (es2[j]?).map pskel = ((s.unitEntities)[j]?).map pskel) :
    GInv { s with unitEntities := es2 } := by
  rcases h with ⟨hb, hu, hn, he⟩
  refine ⟨?_, ?_, ?_, ?_⟩
  · intro e2 hmem
    rcases List.mem_iff_getElem?.mp hmem with ⟨j, hj⟩
    rcases map_eq_some_extract (hpt j) hj with ⟨e, hee, hsk⟩
    rcases pskel_fields hsk with ⟨hid, _⟩
    show e2.id < s.nextEntityId
    rw [hid]
    exact hb e (getElem_mem_of_eq_some hee)
  · exact idsUnique_of_pointwise hlen
      (fun j e2 e h1 h2 => by
        rcases map_eq_some_extract (hpt j) h1 with ⟨e0, he0, hsk⟩
        rw [he0] at h2
        cases h2
        exact (pskel_fields hsk).1) hu
  · intro e2 hmem
    rcases List.mem_iff_getElem?.mp hmem with ⟨j, hj⟩
    rcases map_eq_some_extract (hpt j) hj with ⟨e, hee, hsk⟩
    rcases pskel_fields hsk with ⟨_, _, _, hst, _⟩
    rw [hst]
    exact hn e (getElem_mem_of_eq_some hee)
  · intro e2 hmem tid htid
    rcases List.mem_iff_getElem?.mp hmem with ⟨j, hj⟩
    rcases map_eq_some_extract (hpt j) hj with ⟨e, hee, hsk⟩
    rcases pskel_fields hsk with ⟨_, _, hpl, hst, hen, _⟩
    rw [hen] at htid
    rcases he e (getElem_mem_of_eq_some hee) tid htid with ⟨hstate, t, htm, htid2, htside⟩
    rcases List.mem_iff_getElem?.mp htm with ⟨k, hk⟩
    rcases map_eq_some_extract (hpt k).symm hk with ⟨t2, ht2, hskt⟩
    rcases pskel_fields hskt with ⟨htid3, _, hpl3, _⟩
    refine ⟨by rw [hst]; exact hstate, t2, getElem_mem_of_eq_some ht2, ?_, ?_⟩
    · rw [← htid3]; exact htid2
    · rw [← hpl3, hpl]; exact htside

theorem GInv_updateSpawnRequest {s : BattleLogic} (h : GInv s) :
    GInv (s.updateSpawnRequest) := by
  rcases updateSpawnRequest_spec s with ⟨news, hents, hnle, hmem, hpw⟩
  rcases h with ⟨hb, hu, hn, he⟩
  refine ⟨?_, ?_, ?_, ?_⟩
  · intro e hmem2
    rw [hents] at hmem2
    rcases List.mem_append.mp hmem2 with hm | hm
    · exact Nat.lt_of_lt_of_le (hb e hm) hnle
    · exact (hmem e hm).2.2.2
  · show IdsUnique (s.updateSpawnRequest).unitEntities
    rw [hents]
    unfold IdsUnique
    rw [List.pairwise_append]
    refine ⟨hu, hpw, ?_⟩
    intro a ha b hb2
    have h1 := hb a ha
    have h2 := (hmem b hb2).2.2.1
    omega
  · intro e hmem2
    rw [hents] at hmem2
    rcases List.mem_append.mp hmem2 with hm | hm
    · exact hn e hm
    · rw [(hmem e hm).2.1]
      intro hc
      cases hc
  · intro e hmem2 tid htid
    rw [hents] at hmem2
    rcases List.mem_append.mp hmem2 with hm | hm
    · rcases he e hm tid htid with ⟨hstate, t, htm, htid2, htside⟩
      exact ⟨hstate, t, by rw [hents]; exact List.mem_append_left news htm, htid2, htside⟩
    · rw [(hmem e hm).1] at htid
      cases htid

theorem GInv_statePost {s : BattleLogic} (h : GInv s) :
    GInv ((s.updateEntityState).updatePostProcess) := by
  rcases h with ⟨hb, hu, hn, he⟩
  have hphase := statePhase_spec s.unitMasterCache s.config s.delegator s.unitEntities hn he hu
  rcases hphase with ⟨hlen3, hsk3, heng3⟩
  have hdef : (s.updateEntityState).unitEntities =
      statePass AttackableState.IDLE (fun es e => updateUnitIdleState s.delegator es e)
        (statePass AttackableState.ENGAGED (fun es e => updateUnitEngagedState s.config es e)
          (statePass AttackableState.KNOCK_BACK
            (fun _ e => updateUnitKnockBackState s.unitMasterCache e)
            s.unitEntities)) := rfl
  have hfin : ((s.updateEntityState).updatePostProcess).unitEntities =
      ((s.updateEntityState).unitEntities.filter
        (fun e => e.state ≠ AttackableState.DEAD)).map
          (fun e => { e with currentFrameDamage := 0 }) :=
    updatePostProcess_unitEntities _
  have hnext : ((s.updateEntityState).updatePostProcess).nextEntityId = s.nextEntityId := rfl
  have hmemfin : ∀ e2 : UnitEntity,
      e2 ∈ ((s.updateEntityState).updatePostProcess).unitEntities →
      ∃ e3 : UnitEntity, e3 ∈ (s.updateEntityState).unitEntities ∧
        e3.state ≠ AttackableState.DEAD ∧ e2 = { e3 with currentFrameDamage := 0 } := by
    intro e2 hmem2
    rw [hfin] at hmem2
    rcases List.mem_map.mp hmem2 with ⟨e3, hm3, heq⟩
    rcases List.mem_filter.mp hm3 with ⟨hm4, hpred⟩
    refine ⟨e3, hm4, by simpa using hpred, heq.symm⟩
  refine ⟨?_, ?_, ?_, ?_⟩
  · intro e2 hmem2
    rcases hmemfin e2 hmem2 with ⟨e3, hm3, _, heq⟩
    rcases List.mem_iff_getElem?.mp hm3 with ⟨j, hj⟩
    rw [hdef] at hj
    rcases map_eq_some_extract (hsk3 j) hj with ⟨e0, he0, hsk⟩
    rcases sskel_fields hsk with ⟨hid, _⟩
    have : e2.id = e3.id := by rw [heq]
    rw [hnext, this, hid]
    exact hb e0 (getElem_mem_of_eq_some he0)
  · show IdsUnique ((s.updateEntityState).updatePostProcess).unitEntities
    rw [hfin]
    unfold IdsUnique
    rw [List.pairwise_map]
    have hu3 : IdsUnique (s.updateEntityState).unitEntities := by
      refine idsUnique_of_pointwise ?_ ?_ hu
      · rw [hdef]; exact hlen3
      · intro j e2 e h1 h2
        rw [hdef] at h1
        rcases map_eq_some_extract (hsk3 j) h1 with ⟨e0, he0, hsk⟩
        rw [he0] at h2
        cases h2
        exact (sskel_fields hsk).1
    have hsub := List.filter_sublist (p := fun e => decide (e.state ≠ AttackableState.DEAD))
      (s.updateEntityState).unitEntities
    have hpw2 := List.Pairwise.sublist hsub hu3
    exact hpw2.imp (fun hab => hab)
  · intro e2 hmem2
    rcases hmemfin e2 hmem2 with ⟨e3, _, hnd3, heq⟩
    rw [heq]
    exact hnd3
  · intro e2 hmem2 tid htid
    rcases hmemfin e2 hmem2 with ⟨e3, hm3, hnd3, heq⟩
    rcases List.mem_iff_getElem?.mp hm3 with ⟨j, hj⟩
    have htid3 : e3.engagedEntity = some tid := by
      have : e2.engagedEntity = e3.engagedEntity := by rw [heq]
      rw [← this]
      exact htid
    rw [hdef] at hj
    rcases heng3 j e3 hj tid htid3 with ⟨hstate, k, t, ht, htid2, htside, htnd⟩
    have htmem : t ∈ (s.updateEntityState).unitEntities := by
      rw [hdef]
      exact getElem_mem_of_eq_some ht
    have htfin : { t with currentFrameDamage := 0 } ∈
        ((s.updateEntityState).updatePostProcess).unitEntities := by
      rw [hfin]
      refine List.mem_map.mpr ⟨t, ?_, rfl⟩
      refine List.mem_filter.mpr ⟨htmem, by simpa using htnd⟩
    refine ⟨?_, { t with currentFrameDamage := 0 }, htfin, htid2, ?_⟩
    · have : e2.state = e3.state := by rw [heq]
      rw [this]
      exact hstate
    · have : e2.isPlayer = e3.isPlayer := by rw [heq]
      rw [this]
      exact htside

theorem GInv_updateMid {s : BattleLogic} (h : GInv s) : GInv (s.updateMid) := by
  have h1 : GInv (s.updateAvailableCost (s.availableCost + s.config.costRecoveryPerFrame)) :=
    GInv_of_fields h (updateAvailableCost_unitEntities s _) (updateAvailableCost_nextEntityId s _)
  have h2 : GInv ((s.updateAvailableCost
      (s.availableCost + s.config.costRecoveryPerFrame)).updateAISpawn) :=
    GInv_of_fields h1 (updateAISpawn_unitEntities _) (updateAISpawn_nextEntityId _)
  have h3 := GInv_updateSpawnRequest h2
  have h4 : GInv { ((s.updateAvailableCost
        (s.availableCost + s.config.costRecoveryPerFrame)).updateAISpawn).updateSpawnRequest with
      unitEntities := updateEntityParameter
        (((s.updateAvailableCost
          (s.availableCost + s.config.costRecoveryPerFrame)).updateAISpawn).updateSpawnRequest).delegator
        (((s.updateAvailableCost
          (s.availableCost + s.config.costRecoveryPerFrame)).updateAISpawn).updateSpawnRequest).unitMasterCache
        (((s.updateAvailableCost
          (s.availableCost + s.config.costRecoveryPerFrame)).updateAISpawn).updateSpawnRequest).unitEntities } :=
    GInv_transport_pskel _ h3 (updateEntityParameter_length _ _ _)
      (fun j => updateEntityParameter_pskel _ _ _ j)
  exact GInv_of_fields h4 rfl rfl

theorem GInv_update {s : BattleLogic} (h : GInv s) : GInv (s.update) := by
  have h5 := GInv_statePost (GInv_updateMid h)
  exact GInv_of_fields h5 rfl rfl

theorem GInv_applyOp {s : BattleLogic} (h : GInv s) (op : Op) : GInv (applyOp s op) := by
  cases op with
  | init p => exact GInv_of_fields h rfl rfl
  | requestSpawn uid ip => exact GInv_of_fields h rfl rfl
  | update => exact GInv_update h

theorem GInv_new : GInv BattleLogic.new := by
  refine ⟨?_, ?_, ?_, ?_⟩
  · intro e hm; cases hm
  · exact List.Pairwise.nil
  · intro e hm; cases hm
  · intro e hm; cases hm

theorem GInv_reach (ops : List Op) : GInv (applyOps BattleLogic.new ops) := by
  suffices hgen : ∀ (ops : List Op) (s : BattleLogic), GInv s → GInv (applyOps s ops) by
    exact hgen ops BattleLogic.new GInv_new
  intro ops
  induction ops with
  | nil => intro s hs; exact hs
  | cons op rest ih =>
    intro s hs
    exact ih (applyOp s op) (GInv_applyOp hs op)

/-! ### Cost safety -/

theorem CostInv_of_fields {s1 s2 : BattleLogic} (h : CostInv s1)
    (hc : s2.availableCost = s1.availableCost) (hcfg : s2.config = s1.config)
    (hl : s2.costLog = s1.costLog) : CostInv s2 := by
  unfold CostInv at h ⊢
  rw [hc, hcfg, hl]
  exact h

theorem updateAvailableCost_le (s : BattleLogic) (c : ℚ) :
    (s.updateAvailableCost c).availableCost ≤ s.config.maxAvailableCost := by
  rw [updateAvailableCost_availableCost]
  split
  · exact le_refl _
  · rename_i hh
    exact le_of_not_lt hh

theorem updateAvailableCost_nonneg (s : BattleLogic) (c : ℚ) (h0 : 0 ≤ c)
    (hm : 0 ≤ s.config.maxAvailableCost) :
    0 ≤ (s.updateAvailableCost c).availableCost := by
  rw [updateAvailableCost_availableCost]
  split
  · exact hm
  · exact h0

theorem CostInv_updateAvailableCost (s : BattleLogic) (c : ℚ) (h : CostInv s) (h0 : 0 ≤ c) :
    CostInv (s.updateAvailableCost c) := by
  rcases h with ⟨hc, hcfg, hlog⟩
  refine ⟨updateAvailableCost_nonneg s c h0 hcfg.2, ?_, ?_⟩
  · rw [updateAvailableCost_config]
    exact hcfg
  · intro p hp
    rcases updateAvailableCost_costLog_mem s c p hp with hold | ⟨h1, h2⟩
    · exact hlog p hold
    · rw [h1, h2]
      exact ⟨updateAvailableCost_nonneg s c h0 hcfg.2, updateAvailableCost_le s c⟩

theorem spawnStep_tmpCost_nonneg (umc : List (Nat × UnitMaster)) (acc : SpawnAcc)
    (r : Nat × Bool) (h : 0 ≤ acc.tmpCost) : 0 ≤ (spawnStep umc acc r).tmpCost := by
  unfold spawnStep
  split
  · exact h
  · split
    · exact h
    · rename_i m hm hcond
      show 0 ≤ (if r.2 then acc.tmpCost - m.cost else acc.tmpCost)
      by_cases hr : r.2 = true
      · rw [if_pos hr]
        by_contra hneg
        exact hcond ⟨hr, by push_neg at hneg; exact hneg⟩
      · rw [if_neg hr]
        exact h

theorem spawnFold_tmpCost_nonneg (umc : List (Nat × UnitMaster)) :
    ∀ (reqs : List (Nat × Bool)) (acc : SpawnAcc), 0 ≤ acc.tmpCost →
      0 ≤ (reqs.foldl (spawnStep umc) acc).tmpCost := by
  intro reqs
  induction reqs with
  | nil => intro acc h; exact h
  | cons r rest ih =>
    intro acc h
    rw [List.foldl_cons]
    exact ih _ (spawnStep_tmpCost_nonneg umc acc r h)

set_option maxHeartbeats 1000000 in
theorem CostInv_updateSpawnRequest (s : BattleLogic) (h : CostInv s) :
    CostInv (s.updateSpawnRequest) := by
  unfold BattleLogic.updateSpawnRequest
  split
  · exact h
  · have hmid : CostInv { s with
        unitEntities := (s.spawnRequestedUnitUnitIds.foldl (spawnStep s.unitMasterCache)
          { tmpCost := s.availableCost
            entities := s.unitEntities
            nextEntityId := s.nextEntityId }).entities
        nextEntityId := (s.spawnRequestedUnitUnitIds.foldl (spawnStep s.unitMasterCache)
          { tmpCost := s.availableCost
            entities := s.unitEntities
            nextEntityId := s.nextEntityId }).nextEntityId } :=
      CostInv_of_fields h rfl rfl rfl
    have hcost : 0 ≤ (s.spawnRequestedUnitUnitIds.foldl (spawnStep s.unitMasterCache)
        { tmpCost := s.availableCost
          entities := s.unitEntities
          nextEntityId := s.nextEntityId }).tmpCost :=
      spawnFold_tmpCost_nonneg s.unitMasterCache s.spawnRequestedUnitUnitIds _ h.1
    have hfin := CostInv_updateAvailableCost _ _ hmid hcost
    exact CostInv_of_fields hfin rfl rfl rfl

theorem updateMid_availableCost (s : BattleLogic) :
    (s.updateMid).availableCost = (((s.updateAvailableCost
      (s.availableCost + s.config.costRecoveryPerFrame)
      ).updateAISpawn).updateSpawnRequest).availableCost := rfl

theorem updateMid_config (s : BattleLogic) :
    (s.updateMid).config = (((s.updateAvailableCost
      (s.availableCost + s.config.costRecoveryPerFrame)
      ).updateAISpawn).updateSpawnRequest).config := rfl

theorem updateMid_costLog (s : BattleLogic) :
    (s.updateMid).costLog = (((s.updateAvailableCost
      (s.availableCost + s.config.costRecoveryPerFrame)
      ).updateAISpawn).updateSpawnRequest).costLog := rfl

theorem updateMid_spawnQueue (s : BattleLogic) :
    (s.updateMid).spawnRequestedUnitUnitIds = (((s.updateAvailableCost
      (s.availableCost + s.config.costRecoveryPerFrame)
      ).updateAISpawn).updateSpawnRequest).spawnRequestedUnitUnitIds := rfl

theorem updateEntityState_availableCost (s : BattleLogic) :
    (s.updateEntityState).availableCost = s.availableCost := rfl

theorem updateEntityState_config (s : BattleLogic) :
    (s.updateEntityState).config = s.config := rfl

theorem updateEntityState_queue (s : BattleLogic) :
    (s.updateEntityState).spawnRequestedUnitUnitIds = s.spawnRequestedUnitUnitIds := rfl

theorem updatePostProcess_availableCost (s : BattleLogic) :
    (s.updatePostProcess).availableCost = s.availableCost := rfl

theorem updatePostProcess_config (s : BattleLogic) :
    (s.updatePostProcess).config = s.config := rfl

theorem updatePostProcess_queue (s : BattleLogic) :
    (s.updatePostProcess).spawnRequestedUnitUnitIds = s.spawnRequestedUnitUnitIds := rfl

theorem update_availableCost (s : BattleLogic) :
    (s.update).availableCost =
      (((s.updateMid).updateEntityState).updatePostProcess).availableCost := rfl

theorem update_config (s : BattleLogic) :
    (s.update).config = (((s.updateMid).updateEntityState).updatePostProcess).config := rfl

theorem update_queue_eq (s : BattleLogic) :
    (s.update).spawnRequestedUnitUnitIds =
      (((s.updateMid).updateEntityState).updatePostProcess).spawnRequestedUnitUnitIds := rfl

theorem update_queue (s : BattleLogic) :
    (s.update).spawnRequestedUnitUnitIds = [] := by
  rw [update_queue_eq, updatePostProcess_queue, updateEntityState_queue, updateMid_spawnQueue]
  exact updateSpawnRequest_queue _

theorem CostInv_updateMid (s : BattleLogic) (h : CostInv s) : CostInv (s.updateMid) := by
  have h1 := CostInv_updateAvailableCost s (s.availableCost + s.config.costRecoveryPerFrame) h
    (add_nonneg h.1 h.2.1.1)
  have h2 := CostInv_of_fields h1 (updateAISpawn_availableCost _) (updateAISpawn_config _)
    (updateAISpawn_costLog _)
  have h3 := CostInv_updateSpawnRequest _ h2
  exact CostInv_of_fields h3 (updateMid_availableCost s) (updateMid_config s)
    (updateMid_costLog s)

theorem CostInv_updateEntityState {s : BattleLogic} (h : CostInv s) :
    CostInv (s.updateEntityState) :=
  CostInv_of_fields h rfl rfl rfl

theorem CostInv_updatePostProcess {s : BattleLogic} (h : CostInv s) :
    CostInv (s.updatePostProcess) :=
  CostInv_of_fields h rfl rfl rfl

theorem CostInv_update (s : BattleLogic) (h : CostInv s) : CostInv (s.update) := by
  have h6 := CostInv_updatePostProcess (CostInv_updateEntityState (CostInv_updateMid s h))
  exact CostInv_of_fields h6 (update_availableCost s) (update_config s) rfl

theorem CostInv_applyOp (s : BattleLogic) (op : Op) (hok : OkOp op) (h : CostInv s) :
    CostInv (applyOp s op) := by
  cases op with
  | init p =>
    rcases h with ⟨hc, hcfg, hlog⟩
    refine ⟨hc, ?_, hlog⟩
    rcases hok with ⟨hcfg2, _⟩
    show ConfigOk (match p.config with
      | some c => c
      | none => s.config)
    cases hpc : p.config with
    | none => exact hcfg
    | some c =>
      rw [hpc] at hcfg2
      exact hcfg2
  | requestSpawn uid ip => exact h
  | update => exact CostInv_update s h

theorem CostInv_new : CostInv BattleLogic.new := by
  refine ⟨le_refl 0, ⟨le_refl 0, by show (0:ℚ) ≤ (100:ℚ); norm_num⟩, ?_⟩
  intro p hp
  cases hp

theorem CostInv_reach (ops : List Op) (hok : ∀ op ∈ ops, OkOp op) :
    CostInv (applyOps BattleLogic.new ops) := by
  suffices hgen : ∀ (ops : List Op) (s : BattleLogic), (∀ op ∈ ops, OkOp op) →
      CostInv s → CostInv (applyOps s ops) by
    exact hgen ops BattleLogic.new hok CostInv_new
  intro ops2
  induction ops2 with
  | nil => intro s _ hs; exact hs
  | cons op rest ih =>
    intro s hoks hs
    exact ih (applyOp s op) (fun o ho => hoks o (List.mem_cons_of_mem op ho))
      (CostInv_applyOp s op (hoks op (List.mem_cons_self op rest)) hs)

set_option maxHeartbeats 1000000 in
theorem updateSpawnRequest_cost_le (s : BattleLogic)
    (h : s.availableCost ≤ s.config.maxAvailableCost) :
    (s.updateSpawnRequest).availableCost ≤ (s.updateSpawnRequest).config.maxAvailableCost := by
  unfold BattleLogic.updateSpawnRequest
  split
  · exact h
  · show (({ s with
        unitEntities := (s.spawnRequestedUnitUnitIds.foldl (spawnStep s.unitMasterCache)
          { tmpCost := s.availableCost
            entities := s.unitEntities
            nextEntityId := s.nextEntityId }).entities
        nextEntityId := (s.spawnRequestedUnitUnitIds.foldl (spawnStep s.unitMasterCache)
          { tmpCost := s.availableCost
            entities := s.unitEntities
            nextEntityId := s.nextEntityId }).nextEntityId } : BattleLogic).updateAvailableCost
        (s.spawnRequestedUnitUnitIds.foldl (spawnStep s.unitMasterCache)
          { tmpCost := s.availableCost
            entities := s.unitEntities
            nextEntityId := s.nextEntityId }).tmpCost).availableCost ≤
      (({ s with
        unitEntities := (s.spawnRequestedUnitUnitIds.foldl (spawnStep s.unitMasterCache)
          { tmpCost := s.availableCost
            entities := s.unitEntities
            nextEntityId := s.nextEntityId }).entities
        nextEntityId := (s.spawnRequestedUnitUnitIds.foldl (spawnStep s.unitMasterCache)
          { tmpCost := s.availableCost
            entities := s.unitEntities
            nextEntityId := s.nextEntityId }).nextEntityId } : BattleLogic).updateAvailableCost
        (s.spawnRequestedUnitUnitIds.foldl (spawnStep s.unitMasterCache)
          { tmpCost := s.availableCost
            entities := s.unitEntities
            nextEntityId := s.nextEntityId }).tmpCost).config.maxAvailableCost
    rw [updateAvailableCost_config]
    exact updateAvailableCost_le _ _

theorem update_cost_le (s : BattleLogic) :
    (s.update).availableCost ≤ (s.update).config.maxAvailableCost := by
  have h1 : ((s.updateAvailableCost (s.availableCost + s.config.costRecoveryPerFrame)
      ).updateAISpawn).availableCost ≤
      ((s.updateAvailableCost (s.availableCost + s.config.costRecoveryPerFrame)
      ).updateAISpawn).config.maxAvailableCost := by
    rw [updateAISpawn_availableCost, updateAISpawn_config, updateAvailableCost_config]
    exact updateAvailableCost_le s _
  rw [update_availableCost, update_config, updatePostProcess_availableCost,
    updatePostProcess_config, updateEntityState_availableCost, updateEntityState_config,
    updateMid_availableCost, updateMid_config]
  exact updateSpawnRequest_cost_le _ h1

/-! ### Identity tracking across a frame -/

theorem updateUnitIdleState_sskel (deleg : Option BattleLogicDelegate)
    (es : List UnitEntity) (unit : UnitEntity) :
    sskel (updateUnitIdleState deleg es unit) = sskel unit := by
  rcases updateUnitIdleState_cases deleg es unit with h | ⟨t, _, _, _, h⟩ <;> rw [h] <;> rfl

theorem statePass_sskel_pointwise (cond : AttackableState)
    (resolve : List UnitEntity → UnitEntity → UnitEntity)
    (hres : ∀ (L : List UnitEntity) (e : UnitEntity), sskel (resolve L e) = sskel e)
    (es : List UnitEntity) (j : Nat) :
    ((statePass cond resolve es)[j]?).map sskel = (es[j]?).map sskel := by
  rcases hcase : es[j]? with _ | e
  · have h1 : es.length ≤ j := by
      by_contra hh
      push_neg at hh
      rw [List.getElem?_eq_getElem hh] at hcase
      cases hcase
    have h2 : (statePass cond resolve es)[j]? = none :=
      List.getElem?_eq_none (by rw [statePass_length]; exact h1)
    rw [h2]
  · rcases statePass_spec cond resolve es j e hcase with ⟨_, h2⟩ | ⟨_, L, h2⟩
    · rw [h2]
    · rw [h2]
      dsimp only [Option.map_some']
      rw [hres L e]

theorem updateEntityState_sskel_pointwise (s : BattleLogic) (j : Nat) :
    (((s.updateEntityState).unitEntities)[j]?).map sskel =
      ((s.unitEntities)[j]?).map sskel := by
  rw [updateEntityState_unitEntities]
  rw [statePass_sskel_pointwise _ _ (fun L e => updateUnitIdleState_sskel s.delegator L e)]
  rw [statePass_sskel_pointwise _ _ (fun L e => updateUnitEngagedState_sskel s.config L e)]
  rw [statePass_sskel_pointwise _ _ (fun L e => updateUnitKnockBackState_sskel s.unitMasterCache e)]

theorem updateMid_unitEntities (s : BattleLogic) :
    (s.updateMid).unitEntities = updateEntityParameter
      ((((s.updateAvailableCost
        (s.availableCost + s.config.costRecoveryPerFrame)).updateAISpawn).updateSpawnRequest).delegator)
      ((((s.updateAvailableCost
        (s.availableCost + s.config.costRecoveryPerFrame)).updateAISpawn).updateSpawnRequest).unitMasterCache)
      ((((s.updateAvailableCost
        (s.availableCost + s.config.costRecoveryPerFrame)).updateAISpawn).updateSpawnRequest).unitEntities) := rfl

theorem updateMid_nextEntityId (s : BattleLogic) :
    (s.updateMid).nextEntityId = (((s.updateAvailableCost
      (s.availableCost + s.config.costRecoveryPerFrame)
      ).updateAISpawn).updateSpawnRequest).nextEntityId := rfl

theorem updatePostProcess_nextEntityId_eq (s : BattleLogic) :
    (s.updatePostProcess).nextEntityId = s.nextEntityId := rfl

theorem update_nextEntityId_eq (s : BattleLogic) :
    (s.update).nextEntityId = (s.updateMid).nextEntityId := rfl

theorem update_unitEntities_eq (s : BattleLogic) :
    (s.update).unitEntities =
      (((s.updateMid).updateEntityState).unitEntities.filter
        (fun e => e.state ≠ AttackableState.DEAD)).map
        (fun e => { e with currentFrameDamage := 0 }) := rfl

theorem update_spec (s : BattleLogic) :
    ∃ news : List UnitEntity,
      (((s.updateMid).unitEntities.length = (s.unitEntities ++ news).length) ∧
        (∀ j : Nat, (((s.updateMid).unitEntities)[j]?).map pskel =
          ((s.unitEntities ++ news)[j]?).map pskel)) ∧
      s.nextEntityId ≤ (s.update).nextEntityId ∧
      (∀ e ∈ news, e.engagedEntity = none ∧ e.state = AttackableState.IDLE ∧
        s.nextEntityId ≤ e.id ∧ e.id < (s.update).nextEntityId) := by
  rcases updateSpawnRequest_spec ((s.updateAvailableCost
      (s.availableCost + s.config.costRecoveryPerFrame)).updateAISpawn) with
    ⟨news, hents, hnle, hmemn, _⟩
  rw [updateAISpawn_unitEntities, updateAvailableCost_unitEntities] at hents
  rw [updateAISpawn_nextEntityId, updateAvailableCost_nextEntityId] at hnle
  refine ⟨news, ⟨?_, ?_⟩, ?_, ?_⟩
  · rw [updateMid_unitEntities, updateEntityParameter_length, hents]
  · intro j
    rw [updateMid_unitEntities, updateEntityParameter_pskel, hents]
  · rw [update_nextEntityId_eq, updateMid_nextEntityId]
    exact hnle
  · intro e hm
    rcases hmemn e hm with ⟨h1, h2, h3, h4⟩
    rw [updateAISpawn_nextEntityId, updateAvailableCost_nextEntityId] at h3
    rw [update_nextEntityId_eq, updateMid_nextEntityId]
    exact ⟨h1, h2, h3, h4⟩

theorem update_nextEntityId_mono (s : BattleLogic) :
    s.nextEntityId ≤ (s.update).nextEntityId := by
  rcases update_spec s with ⟨_, _, hmono, _⟩
  exact hmono

theorem update_ids (s : BattleLogic) :
    ∀ e2 ∈ (s.update).unitEntities,
      (∃ e ∈ s.unitEntities, e2.id = e.id) ∨ s.nextEntityId ≤ e2.id := by
  intro e2 hmem
  rw [update_unitEntities_eq] at hmem
  rcases List.mem_map.mp hmem with ⟨e3, hm3, heq⟩
  have hm4 := (List.mem_filter.mp hm3).1
  rcases List.mem_iff_getElem?.mp hm4 with ⟨j, hj⟩
  rcases map_eq_some_extract (updateEntityState_sskel_pointwise (s.updateMid) j) hj
    with ⟨e4, he4, hsk4⟩
  rcases update_spec s with ⟨news, ⟨_, hpt⟩, _, hmemn⟩
  rcases map_eq_some_extract (hpt j) he4 with ⟨e5, he5, hpsk5⟩
  have hid23 : e2.id = e3.id := by rw [← heq]
  have hid34 : e3.id = e4.id := (sskel_fields hsk4).1
  have hid45 : e4.id = e5.id := (pskel_fields hpsk5).1
  have hidfin : e2.id = e5.id := by rw [hid23, hid34, hid45]
  rw [List.getElem?_append] at he5
  by_cases hjl : j < s.unitEntities.length
  · rw [if_pos hjl] at he5
    left
    exact ⟨e5, getElem_mem_of_eq_some he5, hidfin⟩
  · rw [if_neg hjl] at he5
    right
    have hm5 : e5 ∈ news := getElem_mem_of_eq_some he5
    rw [hidfin]
    exact (hmemn e5 hm5).2.2.1

/-! ### Survival of idle and engaged entities -/

theorem entity_survives_update (s : BattleLogic) (j : Nat) (e : UnitEntity)
    (hj : (s.unitEntities)[j]? = some e)
    (hst : e.state = AttackableState.IDLE ∨ e.state = AttackableState.ENGAGED) :
    ∃ e2 ∈ (s.update).unitEntities, e2.id = e.id ∧ e2.state ≠ AttackableState.DEAD := by
  have hjl : j < s.unitEntities.length := by
    rcases List.getElem?_eq_some.mp hj with ⟨hh, _⟩
    exact hh
  -- the entity at index j after spawning and parameter update
  rcases update_spec s with ⟨news, ⟨_, hpt⟩, _, _⟩
  have happ : (s.unitEntities ++ news)[j]? = some e := by
    rw [List.getElem?_append, if_pos hjl]
    exact hj
  rcases map_eq_some_extract ((hpt j).symm) happ with ⟨e4, he4, hpsk4⟩
  rcases pskel_fields hpsk4 with ⟨hid4, _, _, hst4, _, _⟩
  -- the KNOCK_BACK pass does not touch it
  have hst4i : e4.state = AttackableState.IDLE ∨ e4.state = AttackableState.ENGAGED := by
    rw [← hst4]
    exact hst
  have hkb4 : e4.state ≠ AttackableState.KNOCK_BACK := by
    rcases hst4i with hh | hh <;> rw [hh] <;> intro hc <;> cases hc
  rcases statePass_spec AttackableState.KNOCK_BACK
      (fun _ e => updateUnitKnockBackState (s.updateMid).unitMasterCache e)
      (s.updateMid).unitEntities j e4 he4 with ⟨_, h1⟩ | ⟨hcontra, _⟩
  swap
  · exact absurd hcontra hkb4
  -- the ENGAGED pass
  have hfinal : ∃ e6, (((s.updateMid).updateEntityState).unitEntities)[j]? = some e6 ∧
      e6.id = e4.id ∧ e6.state ≠ AttackableState.DEAD := by
    rw [updateEntityState_unitEntities]
    rcases hst4i with hidle | heng
    · -- idle at the engaged pass: untouched there
      rcases statePass_spec AttackableState.ENGAGED
          (fun es e => updateUnitEngagedState (s.updateMid).config es e)
          _ j e4 h1 with ⟨_, h2⟩ | ⟨hcontra, _⟩
      swap
      · rw [hidle] at hcontra; cases hcontra
      rcases statePass_spec AttackableState.IDLE
          (fun es e => updateUnitIdleState (s.updateMid).delegator es e)
          _ j e4 h2 with ⟨_, h3⟩ | ⟨_, L, h3⟩
      · refine ⟨e4, h3, rfl, ?_⟩
        rw [hidle]
        intro hc; cases hc
      · refine ⟨updateUnitIdleState (s.updateMid).delegator L e4, h3, ?_, ?_⟩
        · exact (sskel_fields (updateUnitIdleState_sskel _ L e4)).1
        · rcases updateUnitIdleState_cases (s.updateMid).delegator L e4 with hc | ⟨t, _, _, _, hc⟩
          · rw [hc, hidle]; intro hx; cases hx
          · rw [hc]
            show AttackableState.ENGAGED ≠ AttackableState.DEAD
            intro hx; cases hx
    · -- engaged at the engaged pass: resolved there
      rcases statePass_spec AttackableState.ENGAGED
          (fun es e => updateUnitEngagedState (s.updateMid).config es e)
          _ j e4 h1 with ⟨hcontra, _⟩ | ⟨_, L, h2⟩
      · exact absurd heng hcontra
      have he5id : (updateUnitEngagedState (s.updateMid).config L e4).id = e4.id :=
        (sskel_fields (updateUnitEngagedState_sskel _ L e4)).1
      have he5nd : (updateUnitEngagedState (s.updateMid).config L e4).state ≠
          AttackableState.DEAD := by
        rcases updateUnitEngagedState_state_cases (s.updateMid).config L e4 with hh | hh | hh <;>
          rw [hh]
        · rw [heng]; intro hx; cases hx
        · intro hx; cases hx
        · intro hx; cases hx
      rcases statePass_spec AttackableState.IDLE
          (fun es e => updateUnitIdleState (s.updateMid).delegator es e)
          _ j (updateUnitEngagedState (s.updateMid).config L e4) h2 with
        ⟨_, h3⟩ | ⟨_, L2, h3⟩
      · exact ⟨_, h3, he5id, he5nd⟩
      · refine ⟨_, h3, ?_, ?_⟩
        · rw [(sskel_fields (updateUnitIdleState_sskel _ L2 _)).1]
          exact he5id
        · rcases updateUnitIdleState_cases (s.updateMid).delegator L2
            (updateUnitEngagedState (s.updateMid).config L e4) with hc | ⟨t, _, _, _, hc⟩
          · rw [hc]; exact he5nd
          · rw [hc]
            show AttackableState.ENGAGED ≠ AttackableState.DEAD
            intro hx; cases hx
  rcases hfinal with ⟨e6, he6, hid6, hnd6⟩
  refine ⟨{ e6 with currentFrameDamage := 0 }, ?_, ?_, ?_⟩
  · rw [update_unitEntities_eq]
    refine List.mem_map.mpr ⟨e6, ?_, rfl⟩
    refine List.mem_filter.mpr ⟨getElem_mem_of_eq_some he6, by simpa using hnd6⟩
  · show e6.id = e.id
    rw [hid6, hid4]
  · show e6.state ≠ AttackableState.DEAD
    exact hnd6

/-! ### Last supporting lemmas -/

theorem applyOps_append (s : BattleLogic) (l1 l2 : List Op) :
    applyOps s (l1 ++ l2) = applyOps (applyOps s l1) l2 :=
  List.foldl_append applyOp s l1 l2

theorem id_absent_stable (i : Nat) (ops : List Op) :
    ∀ s : BattleLogic, (∀ e ∈ s.unitEntities, e.id ≠ i) → i < s.nextEntityId →
      (∀ e ∈ (applyOps s ops).unitEntities, e.id ≠ i) ∧
        i < (applyOps s ops).nextEntityId := by
  induction ops with
  | nil => intro s h1 h2; exact ⟨h1, h2⟩
  | cons op rest ih =>
    intro s h1 h2
    have hstep : (∀ e ∈ (applyOp s op).unitEntities, e.id ≠ i) ∧
        i < (applyOp s op).nextEntityId := by
      cases op with
      | init p => exact ⟨h1, h2⟩
      | requestSpawn uid ip => exact ⟨h1, h2⟩
      | update =>
        constructor
        · intro e he
          rcases update_ids s e he with ⟨e0, he0, heq⟩ | hge
          · rw [heq]; exact h1 e0 he0
          · intro hc; rw [hc] at hge; omega
        · exact Nat.lt_of_lt_of_le h2 (update_nextEntityId_mono s)
    exact ih (applyOp s op) hstep.1 hstep.2

theorem spawnStep_ai (umc : List (Nat × UnitMaster)) (acc : SpawnAcc)
    (uid : Nat) (m : UnitMaster) (hm : mapGet umc uid = some m) :
    spawnStep umc acc (uid, false) =
      { tmpCost := acc.tmpCost
        entities := acc.entities ++
          [{ UnitEntity.fresh uid false with
              id := acc.nextEntityId
              maxHealth := m.maxHealth
              currentHealth := m.maxHealth
              state := AttackableState.IDLE }]
        nextEntityId := acc.nextEntityId + 1 } := by
  unfold spawnStep
  simp only [hm]
  rfl

/-! ### The claims -/

unseal Rat.sub Rat.add Rat.mul Rat.inv Rat.ofScientific in
set_option maxRecDepth 100000 in
/-- C1 (corrected): an entity ENGAGED at the start of the state phase
transitions to KNOCK_BACK iff some configured threshold fraction of its
maxHealth was crossed downward by this frame's damage, the transition
clears the engagement, and the ladder runs regardless of the disengage
check.  In Scenario C (power 10, thresholds [0.5], maxHealth 100) the
health falls in steps of 10, so the entity enters KNOCK_BACK exactly on
the frame its health goes from 50 to 40 (the seventh update), not on
the 55-to-45 frame of the original claim (health is never 55 or 45). -/
theorem spec2proof_C1 (cfg : BattleLogicConfig) (es : List UnitEntity) (unit : UnitEntity)
    (h : unit.state = AttackableState.ENGAGED) :
    (((updateUnitEngagedState cfg es unit).state = AttackableState.KNOCK_BACK) ↔
      ∃ rate ∈ cfg.knockBackHealthThreasholds,
        unit.currentHealth < unit.maxHealth * rate ∧
        unit.currentHealth + unit.currentFrameDamage ≥ unit.maxHealth * rate) ∧
    ((updateUnitEngagedState cfg es unit).state = AttackableState.KNOCK_BACK →
      (updateUnitEngagedState cfg es unit).engagedEntity = none) ∧
    ((∃ e ∈ (scenarioC 7).unitEntities, e.id = 0 ∧
        e.state = AttackableState.KNOCK_BACK ∧ e.currentHealth = 40) ∧
      (∀ e ∈ (scenarioC 6).unitEntities, e.id = 0 →
        e.state = AttackableState.ENGAGED ∧ e.currentHealth = 50) ∧
      (∀ k < 7, ∀ e ∈ (scenarioC k).unitEntities,
        e.state ≠ AttackableState.KNOCK_BACK)) := by
  refine ⟨(updateUnitEngagedState_knockback cfg es unit h).1,
    (updateUnitEngagedState_knockback cfg es unit h).2, by decide⟩

unseal Rat.sub Rat.add Rat.mul Rat.inv Rat.ofScientific in
set_option maxRecDepth 100000 in
theorem spec2proof_C1_witness :
    (updateUnitEngagedState cfgC [] entityC1w).state = AttackableState.KNOCK_BACK ∧
    (updateUnitEngagedState cfgC [] entityC1w).engagedEntity = none := by
  have h := spec2proof_C1 cfgC [] entityC1w rfl
  have hkb : (updateUnitEngagedState cfgC [] entityC1w).state =
      AttackableState.KNOCK_BACK :=
    (h.1).mpr ⟨1/2, by decide, by decide, by decide⟩
  exact ⟨hkb, h.2.1 hkb⟩

unseal Rat.sub Rat.add Rat.mul Rat.inv Rat.ofScientific in
set_option maxRecDepth 100000 in
/-- C1 counterexample: in Scenario C the damaged unit does enter
KNOCK_BACK (on the seventh update, at health 40), yet its health is
never 55 nor 45 on any frame up to that point, so no transition can
happen on a frame where health goes from 55 to 45. -/
theorem spec2proof_C1_cex :
    (∃ e ∈ (scenarioC 7).unitEntities, e.id = 0 ∧
      e.state = AttackableState.KNOCK_BACK) ∧
    (∀ k < 8, ∀ e ∈ (scenarioC k).unitEntities,
      e.currentHealth ≠ 55 ∧ e.currentHealth ≠ 45) := by
  decide

/-- C2 (confirmed): one processed player spawn request either fully
succeeds (the master's cost is deducted exactly once from the running
counter and exactly one entity is appended, carrying the next
sequential id, state IDLE and health equal to the master's maxHealth)
or fully fails with the accumulator unchanged, which happens exactly
when the master is missing or the running counter is insufficient;
and the pending queue is cleared by the drain, so dropped requests
are never retried. -/
theorem spec2proof_C2 (umc : List (Nat × UnitMaster)) (acc : SpawnAcc) (uid : Nat) :
    (mapGet umc uid = none → spawnStep umc acc (uid, true) = acc) ∧
    (∀ m : UnitMaster, mapGet umc uid = some m →
      (acc.tmpCost < m.cost → spawnStep umc acc (uid, true) = acc) ∧
      (m.cost ≤ acc.tmpCost → spawnStep umc acc (uid, true) =
        { tmpCost := acc.tmpCost - m.cost
          entities := acc.entities ++
            [{ UnitEntity.fresh uid true with
                id := acc.nextEntityId
                maxHealth := m.maxHealth
                currentHealth := m.maxHealth
                state := AttackableState.IDLE }]
          nextEntityId := acc.nextEntityId + 1 })) ∧
    (∀ s : BattleLogic, (s.updateSpawnRequest).spawnRequestedUnitUnitIds = []) := by
  refine ⟨?_, ?_, updateSpawnRequest_queue⟩
  · intro hm
    unfold spawnStep
    simp only [hm]
  · intro m hm
    constructor
    · intro hlt
      unfold spawnStep
      simp only [hm]
      rw [if_pos (⟨trivial, sub_neg.mpr hlt⟩ :
        True ∧ acc.tmpCost - m.cost < 0)]
    · intro hle
      unfold spawnStep
      simp only [hm]
      rw [if_neg (fun hand => (not_lt.mpr (sub_nonneg.mpr hle))
        (hand : True ∧ acc.tmpCost - m.cost < 0).2)]
      rfl

unseal Rat.sub Rat.add Rat.mul Rat.inv Rat.ofScientific in
set_option maxRecDepth 100000 in
theorem spec2proof_C2_witness :
    (masterC.cost ≤ (5 : ℚ)) ∧
    (spawnStep [(1, masterC)] ⟨5, [], 0⟩ (1, true) =
      { tmpCost := 5 - masterC.cost
        entities := [{ UnitEntity.fresh 1 true with
            id := 0
            maxHealth := masterC.maxHealth
            currentHealth := masterC.maxHealth
            state := AttackableState.IDLE }]
        nextEntityId := 1 }) := by
  refine ⟨by decide, ?_⟩
  have h := ((spec2proof_C2 [(1, masterC)] ⟨5, [], 0⟩ 1).2.1 masterC rfl).2 (by decide)
  rw [h]
  rfl

/-- C3 (corrected): with non-negative costRecoveryPerFrame and unit
costs AND a non-negative maxAvailableCost, the available cost stays
non-negative at every reachable state, every recorded cost
notification carries a value within [0, cap], and after an update the
stored cost is at most the cap.  The original claim omits the
non-negativity of maxAvailableCost, without which the clamp itself
drives the cost negative. -/
theorem spec2proof_C3 (ops : List Op) (hok : ∀ op ∈ ops, OkOp op) :
    (0 ≤ (applyOps BattleLogic.new ops).availableCost) ∧
    (∀ p ∈ (applyOps BattleLogic.new ops).costLog, 0 ≤ p.1 ∧ p.1 ≤ p.2.1) ∧
    ((applyOps BattleLogic.new (ops ++ [Op.update])).availableCost ≤
      (applyOps BattleLogic.new (ops ++ [Op.update])).config.maxAvailableCost) := by
  rcases CostInv_reach ops hok with ⟨h1, _, hlog⟩
  refine ⟨h1, hlog, ?_⟩
  rw [applyOps_append]
  exact update_cost_le (applyOps BattleLogic.new ops)

unseal Rat.sub Rat.add Rat.mul Rat.inv Rat.ofScientific in
set_option maxRecDepth 100000 in
theorem spec2proof_C3_witness :
    (0 ≤ (applyOps BattleLogic.new opsKill).availableCost) ∧
    ((applyOps BattleLogic.new (opsKill ++ [Op.update])).availableCost ≤
      (applyOps BattleLogic.new (opsKill ++ [Op.update])).config.maxAvailableCost) := by
  have hok : ∀ op ∈ opsKill, OkOp op := by
    intro op hop
    fin_cases hop
    · exact ⟨⟨le_refl 0, by norm_num⟩, fun m hm => by
        simp only [paramsKill, List.mem_singleton] at hm
        rw [hm]
        norm_num [masterKill]⟩
    · exact trivial
    · exact trivial
    · exact trivial
    · exact trivial
    · exact trivial
  have h := spec2proof_C3 opsKill hok
  exact ⟨h.1, h.2.2⟩

unseal Rat.sub Rat.add Rat.mul Rat.inv Rat.ofScientific in
set_option maxRecDepth 100000 in
/-- C3 counterexample: the configuration with maxAvailableCost = -1
has non-negative recovery and (vacuously) non-negative unit costs, yet
after one update the clamp sets the available cost to -1, below zero,
and the cost notification records that negative value. -/
theorem spec2proof_C3_cex :
    (∀ m ∈ paramsNegativeCap.unitMasters, (0:ℚ) ≤ m.cost) ∧
    (0 ≤ (BattleLogic.new.init paramsNegativeCap).config.costRecoveryPerFrame) ∧
    stateNegativeCap.availableCost < 0 := by
  decide

unseal Rat.sub Rat.add Rat.mul Rat.inv Rat.ofScientific in
set_option maxRecDepth 100000 in
/-- C4 (corrected): the three state-resolution loops do run in the
fixed order KNOCK_BACK, ENGAGED, IDLE, but each loop tests every
entity's state at the moment the loop reaches it, not the state the
entity had at the start of the phase: an entity untouched by a pass is
the one whose current state differs from the pass condition, and in
the concrete run an entity that entered the phase in KNOCK_BACK,
dropped to IDLE during knockback resolution, is then given IDLE
resolution in the same frame and ends the frame ENGAGED. -/
theorem spec2proof_C4 (cond : AttackableState)
    (resolve : List UnitEntity → UnitEntity → UnitEntity)
    (es : List UnitEntity) (j : Nat) (e : UnitEntity) (hj : es[j]? = some e) :
    (∀ s : BattleLogic, (s.updateEntityState).unitEntities =
      statePass AttackableState.IDLE (fun es2 e2 => updateUnitIdleState s.delegator es2 e2)
        (statePass AttackableState.ENGAGED (fun es2 e2 => updateUnitEngagedState s.config es2 e2)
          (statePass AttackableState.KNOCK_BACK
            (fun _ e2 => updateUnitKnockBackState s.unitMasterCache e2)
            s.unitEntities))) ∧
    ((e.state ≠ cond → (statePass cond resolve es)[j]? = some e) ∧
     (e.state = cond → ∃ L, (statePass cond resolve es)[j]? = some (resolve L e))) ∧
    (∃ e2 ∈ (stateC4.update).unitEntities,
      e2.id = 0 ∧ e2.state = AttackableState.ENGAGED ∧ e2.engagedEntity = some 1) := by
  refine ⟨updateEntityState_unitEntities, ⟨?_, ?_⟩, by decide⟩
  · intro hne
    rcases statePass_spec cond resolve es j e hj with ⟨_, h2⟩ | ⟨hc, _⟩
    · exact h2
    · exact absurd hc hne
  · intro hc
    rcases statePass_spec cond resolve es j e hj with ⟨hne, _⟩ | ⟨_, L, h2⟩
    · exact absurd hc hne
    · exact ⟨L, h2⟩

theorem spec2proof_C4_witness :
    (entityFoe.state ≠ AttackableState.KNOCK_BACK) ∧
    ((statePass AttackableState.KNOCK_BACK (fun _ u => u) [entityFoe])[0]? =
      some entityFoe) :=
  ⟨by decide,
   (spec2proof_C4 AttackableState.KNOCK_BACK (fun _ u => u) [entityFoe] 0 entityFoe
     rfl).2.1.1 (by decide)⟩

unseal Rat.sub Rat.add Rat.mul Rat.inv Rat.ofScientific in
set_option maxRecDepth 100000 in
/-- C4 counterexample: in stateC4 the entity with id 0 is in
KNOCK_BACK at the start of the state-transition phase, becomes IDLE
during KNOCK_BACK resolution (duration elapsed, health 10), and ends
the very same update ENGAGED on target 1 — so it was additionally
given IDLE resolution (target scanning and engagement) within the
same frame, which the original claim rules out. -/
theorem spec2proof_C4_cex :
    (∃ e ∈ stateC4.unitEntities, e.id = 0 ∧ e.state = AttackableState.KNOCK_BACK) ∧
    (∃ e ∈ (stateC4.update).unitEntities, e.id = 0 ∧
      e.state = AttackableState.ENGAGED ∧ e.engagedEntity = some 1) := by
  decide

unseal Rat.sub Rat.add Rat.mul Rat.inv Rat.ofScientific in
set_option maxRecDepth 100000 in
/-- C5 (corrected): without a Decision Delegate the damage query and
the walk query default to permit — an engaged attacker still deals its
power to its target and an IDLE entity still walks by its speed — but
the engagement query does NOT default to permit: IDLE resolution only
engages through an attached delegate, so with none attached an IDLE
entity never engages, and two mutually eligible idle opponents walk on
forever unengaged. -/
theorem spec2proof_C5 (es : List UnitEntity) (unit target : UnitEntity)
    (master : UnitMaster) (tid : Nat)
    (heng : unit.engagedEntity = some tid)
    (hfind : es.find? (fun t => t.id = tid) = some target) :
    (updateDamage none es unit master =
      modifyById tid (fun t =>
        { t with
          currentHealth := t.currentHealth - master.power
          currentFrameDamage := t.currentFrameDamage + master.power }) es) ∧
    (unit.state = AttackableState.IDLE →
      (updateDistance none unit master).distance = unit.distance + master.speed) ∧
    (updateUnitIdleState none es unit = unit) ∧
    (∀ e ∈ (iterUpdate stateNoDelegate 3).unitEntities,
      e.state = AttackableState.IDLE ∧ e.engagedEntity = none ∧ e.distance = 3) := by
  refine ⟨?_, fun hidle => (updateDistance_idle_noDelegate unit master hidle).1,
    idleScan_none unit es, by decide⟩
  unfold updateDamage
  simp only [heng, hfind]
  rfl

theorem spec2proof_C5_witness :
    updateUnitIdleState none [entityNeg1] entityNeg0 = entityNeg0 :=
  (spec2proof_C5 [entityNeg1] entityNeg0 entityNeg1 masterC 1 rfl rfl).2.2.1

unseal Rat.sub Rat.add Rat.mul Rat.inv Rat.ofScientific in
set_option maxRecDepth 100000 in
/-- C5 counterexample: with no delegate attached and two mutually
eligible opposing IDLE entities in view, one update leaves both
entities IDLE and unengaged (they merely walk), refuting the claim
that an IDLE entity still engages the first eligible opposing target
when no delegate is attached. -/
theorem spec2proof_C5_cex :
    (stateNoDelegate.delegator).isNone = true ∧
    (∃ e ∈ stateNoDelegate.unitEntities, e.isPlayer = true ∧
      e.state = AttackableState.IDLE) ∧
    (∃ t ∈ stateNoDelegate.unitEntities, t.isPlayer = false ∧
      t.state = AttackableState.IDLE) ∧
    (∀ e ∈ (stateNoDelegate.update).unitEntities, e.engagedEntity = none ∧
      e.state = AttackableState.IDLE) := by
  refine ⟨rfl, by decide⟩

/-- C6 (confirmed): for a KNOCK_BACK entity whose master is present,
resolution clears the engagement; it stays KNOCK_BACK while the
knockback counter is below the master's knockBackFrames, and otherwise
dies below one health and returns to IDLE at one or above — the
counter having been incremented once per knocked-back frame by the
parameter-update pass. -/
theorem spec2proof_C6 (umc : List (Nat × UnitMaster)) (deleg : Option BattleLogicDelegate)
    (unit : UnitEntity) (m : UnitMaster)
    (hm : mapGet umc unit.unitId = some m)
    (hkb : unit.state = AttackableState.KNOCK_BACK) :
    ((updateUnitKnockBackState umc unit).engagedEntity = none) ∧
    ((updateUnitKnockBackState umc unit).state =
      (if unit.currentKnockBackFrameCount < m.knockBackFrames then AttackableState.KNOCK_BACK
       else if unit.currentHealth < 1 then AttackableState.DEAD
       else AttackableState.IDLE)) ∧
    ((updateDistance deleg unit m).currentKnockBackFrameCount =
      unit.currentKnockBackFrameCount + 1) := by
  refine ⟨updateUnitKnockBackState_engagedEntity umc unit, ?_,
    (updateDistance_knockback deleg unit m hkb).1⟩
  rw [updateUnitKnockBackState_resolve umc unit m hm, hkb]

unseal Rat.sub Rat.add Rat.mul Rat.inv Rat.ofScientific in
set_option maxRecDepth 100000 in
theorem spec2proof_C6_witness :
    (updateUnitKnockBackState [(1, masterC4)] entityKB).engagedEntity = none ∧
    (updateUnitKnockBackState [(1, masterC4)] entityKB).state =
      AttackableState.KNOCK_BACK ∧
    (updateDistance (some allTrueDelegate) entityKB masterC4).currentKnockBackFrameCount =
      6 := by
  have h := spec2proof_C6 [(1, masterC4)] (some allTrueDelegate) entityKB masterC4 rfl rfl
  refine ⟨h.1, ?_, h.2.2⟩
  rw [h.2.1]
  decide

unseal Rat.sub Rat.add Rat.mul Rat.inv Rat.ofScientific in
set_option maxRecDepth 100000 in
/-- C7 (confirmed): DEAD is terminal — at every reachable state (in
particular after every update) no live entity is DEAD, the
end-of-frame compaction having dropped every DEAD entity inside the
same update; and an id that is absent from the live collection while
below the next-id counter never re-enters the collection under any
further operations. -/
theorem spec2proof_C7 (ops more : List Op) (i : Nat)
    (hgone : ∀ e ∈ (applyOps BattleLogic.new ops).unitEntities, e.id ≠ i)
    (hlt : i < (applyOps BattleLogic.new ops).nextEntityId) :
    (∀ l : List Op, ∀ e ∈ (applyOps BattleLogic.new l).unitEntities,
      e.state ≠ AttackableState.DEAD) ∧
    (∀ e ∈ (applyOps BattleLogic.new (ops ++ more)).unitEntities, e.id ≠ i) := by
  constructor
  · intro l e he
    exact (GInv_reach l).2.2.1 e he
  · rw [applyOps_append]
    exact (id_absent_stable i more _ hgone hlt).1

unseal Rat.sub Rat.add Rat.mul Rat.inv Rat.ofScientific in
set_option maxRecDepth 100000 in
theorem spec2proof_C7_witness :
    (0 < (applyOps BattleLogic.new opsKill).nextEntityId) ∧
    (∀ e ∈ (applyOps BattleLogic.new
        (opsKill ++ [Op.requestSpawn 1 false, Op.update])).unitEntities,
      e.id ≠ 0) :=
  ⟨by decide,
   (spec2proof_C7 opsKill [Op.requestSpawn 1 false, Op.update] 0
     (by decide) (by decide)).2⟩

unseal Rat.sub Rat.add Rat.mul Rat.inv Rat.ofScientific in
set_option maxRecDepth 100000 in
/-- C8 (confirmed): the update executed at frame counter f enqueues,
in schedule order, one AI-side request per unit-type id listed under
exactly f in the wave cache (none when f has no entry), and an AI-side
request whose master exists is accepted with no cost gate — the
running counter is unchanged and one entity is appended.  In Scenario
D (schedule frame 3 : [7]) the first three frames spawn nothing and
frame 3 spawns exactly one AI entity of type 7. -/
theorem spec2proof_C8 (s : BattleLogic) (umc : List (Nat × UnitMaster))
    (acc : SpawnAcc) (uid : Nat) (m : UnitMaster)
    (hm : mapGet umc uid = some m) :
    ((s.updateAISpawn).spawnRequestedUnitUnitIds =
      s.spawnRequestedUnitUnitIds ++
        (match mapGet s.aiWaveCache s.passedFrameCount with
         | none => []
         | some waves => waves.map (fun uid2 => (uid2, false)))) ∧
    (spawnStep umc acc (uid, false) =
      { tmpCost := acc.tmpCost
        entities := acc.entities ++
          [{ UnitEntity.fresh uid false with
              id := acc.nextEntityId
              maxHealth := m.maxHealth
              currentHealth := m.maxHealth
              state := AttackableState.IDLE }]
        nextEntityId := acc.nextEntityId + 1 }) ∧
    ((scenarioD 3).unitEntities = [] ∧
      (scenarioD 4).unitEntities.map (fun e => (e.unitId, e.isPlayer)) = [(7, false)]) :=
  ⟨updateAISpawn_queue s, spawnStep_ai umc acc uid m hm, by decide⟩

unseal Rat.sub Rat.add Rat.mul Rat.inv Rat.ofScientific in
set_option maxRecDepth 100000 in
theorem spec2proof_C8_witness :
    ((scenarioD 3).unitEntities = [] ∧
      (scenarioD 4).unitEntities.map (fun e => (e.unitId, e.isPlayer)) = [(7, false)]) :=
  (spec2proof_C8 BattleLogic.new [(7, master7)] ⟨0, [], 0⟩ 7 master7 rfl).2.2

/-- C9 (confirmed): at every reachable state (in particular after
every update), an entity holding a non-null engagedEntity references
an entity that is itself a member of the live collection and belongs
to the opposing side. -/
theorem spec2proof_C9 (ops : List Op) (e : UnitEntity) (tid : Nat)
    (he : e ∈ (applyOps BattleLogic.new ops).unitEntities)
    (htid : e.engagedEntity = some tid) :
    ∃ t ∈ (applyOps BattleLogic.new ops).unitEntities,
      t.id = tid ∧ t.isPlayer = !e.isPlayer :=
  ((GInv_reach ops).2.2.2 e he tid htid).2

unseal Rat.sub Rat.add Rat.mul Rat.inv Rat.ofScientific in
set_option maxRecDepth 100000 in
theorem spec2proof_C9_witness :
    entityC9 ∈ (scenarioC 1).unitEntities ∧
    (∃ t ∈ (scenarioC 1).unitEntities, t.id = 1 ∧ t.isPlayer = !entityC9.isPlayer) :=
  ⟨by decide,
   spec2proof_C9 (Op.init paramsC :: Op.requestSpawn 1 true ::
     Op.requestSpawn 1 false :: List.replicate 1 Op.update) entityC9 1 (by decide) rfl⟩

unseal Rat.sub Rat.add Rat.mul Rat.inv Rat.ofScientific in
set_option maxRecDepth 100000 in
/-- C10 (confirmed): DEAD is assigned only during KNOCK_BACK
resolution — the ENGAGED and IDLE resolvers never produce DEAD from a
live entity — and an entity that is IDLE or ENGAGED at the start of a
frame survives that frame's compaction whatever its health; concretely
two mutually engaged entities below one health keep fighting on later
frames, their health falling further while they stay ENGAGED. -/
theorem spec2proof_C10 (s : BattleLogic) (j : Nat) (e : UnitEntity)
    (cfg : BattleLogicConfig) (es : List UnitEntity)
    (deleg : Option BattleLogicDelegate) (unit : UnitEntity)
    (hj : (s.unitEntities)[j]? = some e)
    (hst : e.state = AttackableState.IDLE ∨ e.state = AttackableState.ENGAGED)
    (hnd : unit.state ≠ AttackableState.DEAD) :
    ((updateUnitEngagedState cfg es unit).state ≠ AttackableState.DEAD) ∧
    ((updateUnitIdleState deleg es unit).state ≠ AttackableState.DEAD) ∧
    (∃ e2 ∈ (s.update).unitEntities, e2.id = e.id ∧
      e2.state ≠ AttackableState.DEAD) ∧
    ((iterUpdate stateNegHealth 2).unitEntities.map
        (fun u => (u.id, u.state, u.currentHealth)) =
      [(0, AttackableState.ENGAGED, -25), (1, AttackableState.ENGAGED, -25)]) := by
  refine ⟨?_, ?_, entity_survives_update s j e hj hst, by decide⟩
  · rcases updateUnitEngagedState_state_cases cfg es unit with hh | hh | hh <;> rw [hh]
    · exact hnd
    · intro hc; cases hc
    · intro hc; cases hc
  · rcases updateUnitIdleState_cases deleg es unit with hh | ⟨t, _, _, _, hh⟩
    · rw [hh]; exact hnd
    · rw [hh]
      show AttackableState.ENGAGED ≠ AttackableState.DEAD
      intro hc; cases hc

unseal Rat.sub Rat.add Rat.mul Rat.inv Rat.ofScientific in
set_option maxRecDepth 100000 in
theorem spec2proof_C10_witness :
    (entityNeg0.currentHealth < 1) ∧
    (∃ e2 ∈ (stateNegHealth.update).unitEntities, e2.id = entityNeg0.id ∧
      e2.state ≠ AttackableState.DEAD) :=
  ⟨by decide,
   (spec2proof_C10 stateNegHealth 0 entityNeg0 BattleLogic.new.config [] none entityNeg1
     rfl (Or.inr rfl) (by decide)).2.2.1⟩

end TowerDiffense
